import Mathlib

/-!
# OnePasswordItem controller: reconciliation, finalizer and status

A shallow embedding of `pkg/controller/onepassworditem/onepassworditem_controller.go`.

The Go code talks to two collaborators through interfaces: the Kubernetes
client (`r.kubeClient`) and the 1Password Connect client (`r.opConnectClient`).
Both are modelled explicitly:

* the cluster is a `Store` (the `OnePasswordItem` objects and the `Secret`
  objects), every request to it is appended to a trace together with the store
  it was issued against, and every request may be rejected by the environment
  (`Env.fault`), in which case the store is left as it was;
* the vault is a function from item paths to either an item or an error text.

The Go type `error` is `Option GoError` (`none` is `nil`); a pointer receiver that the
Go code mutates (`onepassworditem`) is returned explicitly.
-/

namespace OnePasswordOperator

/-! ## Values -/

/-- Go `error` values as this controller can tell them apart: the API server's
"not found" status error, recognised by `errors.IsNotFound`, and everything
else. Both carry the text returned by `Error()`. -/
inductive GoError where
  | notFound (msg : String)
  | other (msg : String)
deriving DecidableEq, Repr

/-- The method `Error()` of a Go error. -/
def GoError.Error : GoError → String
  | .notFound msg => msg
  | .other msg => msg

/-- The function `errors.IsNotFound` of k8s.io/apimachinery. -/
def IsNotFound : GoError → Bool
  | .notFound _ => true
  | .other _ => false

/-- The call `fmt.Errorf(format, err)` for a format made of a fixed text followed by
one `%v` or `%s` verb: a fresh error (never a "not found" status error) whose
text is the fixed text followed by the text of `err`. -/
def Errorf (pre : String) (msg : String) : GoError :=
  .other (pre ++ msg)

/-- A `metav1.Time`; the zero time is `0`. -/
abbrev Time := Nat

/-- The method `IsZero` of `*metav1.Time`: a nil pointer or the zero time. -/
def IsZero : Option Time → Bool
  | none => true
  | some t => t == 0

/-- A `types.NamespacedName`. -/
structure NamespacedName where
  Namespace : String
  Name : String
deriving DecidableEq, Repr

/-- The constants `metav1.ConditionTrue`, `ConditionFalse`, `ConditionUnknown`
of the string type `metav1.ConditionStatus`. -/
def ConditionTrue : String := "True"

def ConditionFalse : String := "False"

def ConditionUnknown : String := "Unknown"

/-- The condition type `onepasswordv1.OnePasswordItemReady`. -/
def OnePasswordItemReady : String := "Ready"

/-- The struct `onepasswordv1.OnePasswordItemCondition`. -/
structure OnePasswordItemCondition where
  Typ : String
  Status : String
  LastTransitionTime : Time
  Message : String
deriving DecidableEq, Repr

/-- The struct `onepasswordv1.OnePasswordItem`, with the fields of `ObjectMeta`,
`Spec` and `Status` that the controller reads or writes. Go maps are
association lists. -/
structure OnePasswordItem where
  Name : String
  Namespace : String
  UID : String
  Labels : List (String × String)
  Annotations : List (String × String)
  Typ : String
  DeletionTimestamp : Option Time
  Finalizers : List String
  ItemPath : String
  Conditions : List OnePasswordItemCondition
deriving DecidableEq, Repr

/-- The key under which the store holds a resource. -/
def OnePasswordItem.key (item : OnePasswordItem) : NamespacedName :=
  { Namespace := item.Namespace, Name := item.Name }

/-- A `metav1.OwnerReference`. -/
structure OwnerReference where
  APIVersion : String
  Kind : String
  Name : String
  UID : String
deriving DecidableEq, Repr

/-- A `schema.GroupVersionKind`. -/
structure GroupVersionKind where
  Group : String
  Version : String
  Kind : String
deriving DecidableEq, Repr

/-- The text of `gvk.GroupVersion().String()`: the version alone for the core
group, `group/version` otherwise. -/
def GroupVersionKind.GroupVersionString (gvk : GroupVersionKind) : String :=
  if gvk.Group = "" then gvk.Version else gvk.Group ++ "/" ++ gvk.Version

/-- A vault item as returned by the Connect client: the field set the derived
secret is built from. -/
structure Item where
  ID : String
  Version : Nat
  Fields : List (String × String)
deriving DecidableEq, Repr

/-- The derived `corev1.Secret`. -/
structure Secret where
  Name : String
  Namespace : String
  Data : List (String × String)
  Labels : List (String × String)
  Typ : String
  Annotations : List (String × String)
  OwnerReferences : List OwnerReference
deriving DecidableEq, Repr

def Secret.key (s : Secret) : NamespacedName :=
  { Namespace := s.Namespace, Name := s.Name }

/-- The struct `reconcile.Result`. -/
structure Result where
  Requeue : Bool := false
  RequeueAfter : Nat := 0
deriving DecidableEq, Repr

/-- The package variable `finalizer`. -/
def finalizer : String := "onepassword.com/finalizer.secret"

/-! ## The store behind `kubeClient` -/

/-- The objects of the cluster the controller deals with. -/
structure Store where
  items : List OnePasswordItem
  secrets : List Secret
deriving DecidableEq, Repr

def Store.getItem (s : Store) (key : NamespacedName) : Option OnePasswordItem :=
  s.items.find? (fun x => decide (x.key = key))

def Store.getSecret (s : Store) (key : NamespacedName) : Option Secret :=
  s.secrets.find? (fun x => decide (x.key = key))

/-- A full-object update: the object stored under the key of `item` takes the
metadata and spec of `item`; its status stays what the store holds (the status
is a sub-resource). -/
def Store.putItem (s : Store) (item : OnePasswordItem) : Store :=
  { s with items := s.items.map (fun x =>
      if x.key = item.key then { item with Conditions := x.Conditions } else x) }

/-- A status sub-resource update: the object stored under the key of `item`
takes the status of `item` and keeps everything else. -/
def Store.putItemStatus (s : Store) (item : OnePasswordItem) : Store :=
  { s with items := s.items.map (fun x =>
      if x.key = item.key then { x with Conditions := item.Conditions } else x) }

def Store.deleteSecret (s : Store) (key : NamespacedName) : Store :=
  { s with secrets := s.secrets.filter (fun x => decide (x.key ≠ key)) }

/-- Create-or-update of a secret: whatever was stored under its key is
replaced by `sec`. -/
def Store.putSecret (s : Store) (sec : Secret) : Store :=
  { s with secrets := sec :: s.secrets.filter (fun x => decide (x.key ≠ sec.key)) }

/-- The requests the controller sends to its collaborators. -/
inductive Call where
  | get (key : NamespacedName)
  | update (item : OnePasswordItem)
  | statusUpdate (item : OnePasswordItem)
  | deleteSecret (key : NamespacedName)
  | fetchItem (path : String)
  | createOrUpdateSecret (sec : Secret)
deriving DecidableEq, Repr

/-- The kinds of request the environment can reject. -/
inductive OpKind where
  | get
  | update
  | statusUpdate
  | deleteSecret
  | createOrUpdateSecret
deriving DecidableEq, Repr

/-- One entry of the trace: the request and the store it was issued against. -/
structure Event where
  call : Call
  before : Store
deriving DecidableEq, Repr

/-- The cluster together with the trace of requests issued so far, oldest
first. -/
structure World where
  store : Store
  trace : List Event
deriving DecidableEq, Repr

/-- The requests issued so far, oldest first. -/
def World.calls (w : World) : List Call :=
  w.trace.map Event.call

def World.record (w : World) (c : Call) : World :=
  { w with trace := w.trace ++ [{ call := c, before := w.store }] }

/-- What the controller does not control.

* `vault path` is the outcome of `onepassword.GetOnePasswordItemByPath`;
* `gvk` is the outcome of `apiutil.GVKForObject(resource, r.scheme)`, which
  depends on the scheme and the Go type of the resource only;
* `fault n kind` says whether the store rejects a request of kind `kind` issued
  when `n` requests are already in the trace, and with which error text. A
  rejected request leaves the store as it was. The store itself reports "not
  found"; that status is never injected;
* `now` is the value of `metav1.Now()` during this reconciliation;
* `RestartDeploymentsAnnotation` is the constant `op.RestartDeploymentsAnnotation`. -/
structure Env where
  vault : String → Except String Item
  gvk : Except String GroupVersionKind
  fault : Nat → OpKind → Option String
  now : Time
  RestartDeploymentsAnnotation : String

/-- The request `r.kubeClient.Get(ctx, key, onepassworditem)`. -/
def kubeGet (env : Env) (w : World) (key : NamespacedName) :
    World × Except GoError OnePasswordItem :=
  match env.fault w.trace.length .get with
  | some msg => (w.record (.get key), .error (.other msg))
  | none =>
    match w.store.getItem key with
    | none => (w.record (.get key), .error (.notFound "not found"))
    | some item => (w.record (.get key), .ok item)

/-- The request `r.kubeClient.Update(ctx, item)`. -/
def kubeUpdate (env : Env) (w : World) (item : OnePasswordItem) : World × Option GoError :=
  match env.fault w.trace.length .update with
  | some msg => (w.record (.update item), some (.other msg))
  | none =>
    match w.store.getItem item.key with
    | none => (w.record (.update item), some (.notFound "not found"))
    | some _ => ({ (w.record (.update item)) with store := w.store.putItem item }, none)

/-- The request `r.kubeClient.Status().Update(ctx, item)`. -/
def kubeStatusUpdate (env : Env) (w : World) (item : OnePasswordItem) : World × Option GoError :=
  match env.fault w.trace.length .statusUpdate with
  | some msg => (w.record (.statusUpdate item), some (.other msg))
  | none =>
    match w.store.getItem item.key with
    | none => (w.record (.statusUpdate item), some (.notFound "not found"))
    | some _ => ({ (w.record (.statusUpdate item)) with store := w.store.putItemStatus item }, none)

/-- The request `r.kubeClient.Delete(ctx, kubernetesSecret)` for a secret object
that carries a name and a namespace only. -/
def kubeDeleteSecret (env : Env) (w : World) (key : NamespacedName) : World × Option GoError :=
  match env.fault w.trace.length .deleteSecret with
  | some msg => (w.record (.deleteSecret key), some (.other msg))
  | none =>
    match w.store.getSecret key with
    | none => (w.record (.deleteSecret key), some (.notFound "not found"))
    | some _ => ({ (w.record (.deleteSecret key)) with store := w.store.deleteSecret key }, none)

/-- The call `onepassword.GetOnePasswordItemByPath(r.opConnectClient, path)`. -/
def GetOnePasswordItemByPath (env : Env) (w : World) (path : String) :
    World × Except String Item :=
  (w.record (.fetchItem path), env.vault path)

/-! ## Helpers of the repository that live outside the controller file -/

/-- Modelled from the spec: `utils.ContainsString` (package `pkg/utils`) is the
string-membership check on the finalizer list. -/
def ContainsString (slice : List String) (s : String) : Bool :=
  slice.contains s

/-- Modelled from the spec: `utils.RemoveString` (package `pkg/utils`) drops
every occurrence of the marker from the finalizer list. -/
def RemoveString (slice : List String) (s : String) : List String :=
  slice.filter (fun x => x != s)

/-- Modelled from the spec: `kubeSecrets.CreateKubernetesSecretFromItem` (package
`pkg/kubernetessecrets`) is the create-or-update of the derived secret by
(namespace, name): the payload comes from the vault item, labels, type and
owner reference from the arguments, the restart annotation is passed through
when set, and an existing object is replaced in full, not merged. -/
def CreateKubernetesSecretFromItem (env : Env) (w : World) (secretName : String)
    (ns : String) (item : Item) (autoRestart : String)
    (labels : List (String × String)) (secretType : String) (ownerRef : OwnerReference) :
    World × Option GoError :=
  let sec : Secret :=
    { Name := secretName
      Namespace := ns
      Data := item.Fields
      Labels := labels
      Typ := secretType
      Annotations :=
        if autoRestart = "" then [] else [(env.RestartDeploymentsAnnotation, autoRestart)]
      OwnerReferences := [ownerRef] }
  match env.fault w.trace.length .createOrUpdateSecret with
  | some msg => (w.record (.createOrUpdateSecret sec), some (.other msg))
  | none => ({ (w.record (.createOrUpdateSecret sec)) with store := w.store.putSecret sec }, none)

/-! ## The controller -/

/-- The function `findCondition`. -/
def findCondition (conditions : List OnePasswordItemCondition) (t : String) :
    OnePasswordItemCondition :=
  match conditions with
  | [] => { Typ := t, Status := ConditionUnknown, LastTransitionTime := 0, Message := "" }
  | c :: rest => if c.Typ = t then c else findCondition rest t

/-- The method `updateStatus`: returns the world, the resource as the method
leaves it in memory and the error of the status write. -/
def updateStatus (env : Env) (w : World) (resource : OnePasswordItem) (err : Option GoError) :
    World × OnePasswordItem × Option GoError :=
  let existingCondition := findCondition resource.Conditions OnePasswordItemReady
  let updatedCondition : OnePasswordItemCondition :=
    match err with
    | some e => { existingCondition with Message := e.Error, Status := ConditionFalse }
    | none => { existingCondition with Message := "", Status := ConditionTrue }
  let updatedCondition : OnePasswordItemCondition :=
    if existingCondition.Status ≠ updatedCondition.Status then
      { updatedCondition with LastTransitionTime := env.now }
    else updatedCondition
  let resource1 := { resource with Conditions := [updatedCondition] }
  let (w1, e) := kubeStatusUpdate env w resource1
  (w1, resource1, e)

/-- The method `HandleOnePasswordItem`. -/
def HandleOnePasswordItem (env : Env) (w : World) (resource : OnePasswordItem)
    (_request : NamespacedName) : World × Option GoError :=
  let secretName := resource.Name
  let labels := resource.Labels
  let secretType := resource.Typ
  let autoRestart := (resource.Annotations.lookup env.RestartDeploymentsAnnotation).getD ""
  match GetOnePasswordItemByPath env w resource.ItemPath with
  | (w1, .error err) => (w1, some (Errorf "Failed to retrieve item: " err))
  | (w1, .ok item) =>
    match env.gvk with
    | .error err => (w1, some (Errorf "could not to retrieve group version kind: " err))
    | .ok gvk =>
      let ownerRef : OwnerReference :=
        { APIVersion := gvk.GroupVersionString
          Kind := gvk.Kind
          Name := resource.Name
          UID := resource.UID }
      CreateKubernetesSecretFromItem env w1 secretName resource.Namespace item autoRestart
        labels secretType ownerRef

/-- The method `cleanupKubernetesSecret`: two deletes in a row, the result of
the first one is dropped. -/
def cleanupKubernetesSecret (env : Env) (w : World) (onePasswordItem : OnePasswordItem) :
    World × Option GoError :=
  let kubernetesSecret : NamespacedName :=
    { Namespace := onePasswordItem.Namespace, Name := onePasswordItem.Name }
  let (w1, _) := kubeDeleteSecret env w kubernetesSecret
  match kubeDeleteSecret env w1 kubernetesSecret with
  | (w2, some err) => if !IsNotFound err then (w2, some err) else (w2, none)
  | (w2, none) => (w2, none)

/-- The method `removeFinalizer`. -/
def removeFinalizer (env : Env) (w : World) (onePasswordItem : OnePasswordItem) :
    World × Option GoError :=
  let item1 := { onePasswordItem with
    Finalizers := RemoveString onePasswordItem.Finalizers finalizer }
  match kubeUpdate env w item1 with
  | (w1, some err) => (w1, some err)
  | (w1, none) => (w1, none)

/-- Lines 98 to 103 of `Reconcile`: the sync, the status update and the error
that is returned. -/
def reconcileSync (env : Env) (w : World) (onepassworditem : OnePasswordItem)
    (request : NamespacedName) : World × Result × Option GoError :=
  match HandleOnePasswordItem env w onepassworditem request with
  | (w1, err) =>
    match updateStatus env w1 onepassworditem err with
    | (w2, _, some updateStatusErr) =>
      (w2, {}, some (Errorf "cannot update status: " updateStatusErr.Error))
    | (w2, _, none) => (w2, {}, err)

/-- The method `Reconcile`. -/
def Reconcile (env : Env) (w : World) (request : NamespacedName) :
    World × Result × Option GoError :=
  match kubeGet env w request with
  | (w1, .error err) =>
    if IsNotFound err then (w1, {}, none) else (w1, {}, some err)
  | (w1, .ok onepassworditem) =>
    if IsZero onepassworditem.DeletionTimestamp then
      if !ContainsString onepassworditem.Finalizers finalizer then
        let item1 := { onepassworditem with
          Finalizers := onepassworditem.Finalizers ++ [finalizer] }
        match kubeUpdate env w1 item1 with
        | (w2, some err) => (w2, {}, some err)
        | (w2, none) => reconcileSync env w2 item1 request
      else
        reconcileSync env w1 onepassworditem request
    else if ContainsString onepassworditem.Finalizers finalizer then
      match cleanupKubernetesSecret env w1 onepassworditem with
      | (w2, some err) => (w2, {}, some err)
      | (w2, none) =>
        match removeFinalizer env w2 onepassworditem with
        | (w3, some err) => (w3, {}, some err)
        | (w3, none) => (w3, {}, none)
    else
      (w1, {}, none)

/-! ## Summaries used in the statements and proofs

`derivedSecret`, `syncEffect`, `syncCalls` and `readyCondition` restate, at the
level of the store, what `HandleOnePasswordItem` and `updateStatus` compute; the
lemmas `handle_store`, `handle_error`, `handle_calls` and `updateStatus_resource`
prove that they agree with the controller code above. -/

/-- The requests issued and the stores they met between the world `w0` and the
later world `w`. -/
def World.since (w w0 : World) : List Event :=
  w.trace.drop w0.trace.length

/-- The secret that the sync writes for a resource, a vault item and the group,
version and kind of the resource. -/
def derivedSecret (env : Env) (resource : OnePasswordItem) (item : Item)
    (gvk : GroupVersionKind) : Secret :=
  { Name := resource.Name
    Namespace := resource.Namespace
    Data := item.Fields
    Labels := resource.Labels
    Typ := resource.Typ
    Annotations :=
      if (resource.Annotations.lookup env.RestartDeploymentsAnnotation).getD "" = "" then []
      else [(env.RestartDeploymentsAnnotation,
        (resource.Annotations.lookup env.RestartDeploymentsAnnotation).getD "")]
    OwnerReferences :=
      [{ APIVersion := gvk.GroupVersionString
         Kind := gvk.Kind
         Name := resource.Name
         UID := resource.UID }] }

/-- What `HandleOnePasswordItem` does to a store and the error it returns, given
the answer `reject` of the environment to the secret write. -/
def syncEffect (env : Env) (reject : Option String) (resource : OnePasswordItem) (s : Store) :
    Store × Option GoError :=
  match env.vault resource.ItemPath with
  | .error msg => (s, some (Errorf "Failed to retrieve item: " msg))
  | .ok item =>
    match env.gvk with
    | .error msg => (s, some (Errorf "could not to retrieve group version kind: " msg))
    | .ok gvk =>
      match reject with
      | some msg => (s, some (.other msg))
      | none => (s.putSecret (derivedSecret env resource item gvk), none)

/-- The requests of `HandleOnePasswordItem`. -/
def syncCalls (env : Env) (resource : OnePasswordItem) : List Call :=
  match env.vault resource.ItemPath with
  | .error _ => [.fetchItem resource.ItemPath]
  | .ok item =>
    match env.gvk with
    | .error _ => [.fetchItem resource.ItemPath]
    | .ok gvk =>
      [.fetchItem resource.ItemPath, .createOrUpdateSecret (derivedSecret env resource item gvk)]

/-- The Ready condition that `updateStatus` computes at time `now` from the
recorded conditions and the sync outcome. -/
def readyCondition (now : Time) (conditions : List OnePasswordItemCondition)
    (err : Option GoError) : OnePasswordItemCondition :=
  { Typ := OnePasswordItemReady
    Status := match err with
      | some _ => ConditionFalse
      | none => ConditionTrue
    LastTransitionTime :=
      if (findCondition conditions OnePasswordItemReady).Status =
          (match err with
           | some _ => ConditionFalse
           | none => ConditionTrue)
      then (findCondition conditions OnePasswordItemReady).LastTransitionTime
      else now
    Message := match err with
      | some e => e.Error
      | none => "" }

/-! ## Concrete worlds -/

def exampleKey : NamespacedName := { Namespace := "default", Name := "db" }

/-- A freshly created resource: no finalizer, no status. -/
def exampleItem : OnePasswordItem :=
  { Name := "db"
    Namespace := "default"
    UID := "uid-1"
    Labels := [("app", "db")]
    Annotations := []
    Typ := "Opaque"
    DeletionTimestamp := none
    Finalizers := []
    ItemPath := "vaults/v1/items/i1"
    Conditions := [] }

/-- The resource after an earlier successful reconciliation. -/
def markedItem : OnePasswordItem :=
  { exampleItem with
    Finalizers := [finalizer]
    Conditions :=
      [{ Typ := "Other", Status := "True", LastTransitionTime := 3, Message := "kept?" },
       { Typ := "Ready", Status := "True", LastTransitionTime := 7, Message := "" }] }

/-- A resource whose only recorded condition is not of type Ready. -/
def otherConditionItem : OnePasswordItem :=
  { exampleItem with
    Conditions :=
      [{ Typ := "Other", Status := "False", LastTransitionTime := 3, Message := "kept?" }] }

/-- The resource once its deletion has been requested. -/
def deletingItem : OnePasswordItem :=
  { exampleItem with DeletionTimestamp := some 5, Finalizers := [finalizer] }

/-- A resource whose deletion has been requested after the cleanup is done. -/
def releasedItem : OnePasswordItem :=
  { exampleItem with DeletionTimestamp := some 5 }

def exampleSecret : Secret :=
  { Name := "db"
    Namespace := "default"
    Data := [("user", "a"), ("pass", "b")]
    Labels := [("app", "db")]
    Typ := "Opaque"
    Annotations := []
    OwnerReferences := [] }

def exampleVaultItem : Item :=
  { ID := "i1", Version := 1, Fields := [("user", "a"), ("pass", "b")] }

def exampleGVK : GroupVersionKind :=
  { Group := "onepassword.com", Version := "v1", Kind := "OnePasswordItem" }

/-- The vault answers, the store accepts every request. -/
def quietEnv : Env :=
  { vault := fun _ => .ok exampleVaultItem
    gvk := .ok exampleGVK
    fault := fun _ _ => none
    now := 100
    RestartDeploymentsAnnotation := "operator.1password.io/auto-restart" }

/-- The vault has no such item, the store accepts every request. -/
def vaultDownEnv : Env :=
  { quietEnv with vault := fun _ => .error "item not found" }

/-- The vault has no such item and the store rejects status writes. -/
def statusRejectedEnv : Env :=
  { vaultDownEnv with
    fault := fun _ kind => if kind = .statusUpdate then some "conflict" else none }

/-- The store rejects updates of the resource. -/
def updateRejectedEnv : Env :=
  { quietEnv with fault := fun _ kind => if kind = .update then some "conflict" else none }

/-- The store rejects deletes. -/
def deleteRejectedEnv : Env :=
  { quietEnv with
    fault := fun _ kind => if kind = .deleteSecret then some "delete refused" else none }

def emptyWorld : World :=
  { store := { items := [], secrets := [] }, trace := [] }

def liveWorld : World :=
  { store := { items := [exampleItem], secrets := [] }, trace := [] }

def markedWorld : World :=
  { store := { items := [markedItem], secrets := [exampleSecret] }, trace := [] }

def deletingWorld : World :=
  { store := { items := [deletingItem], secrets := [exampleSecret] }, trace := [] }

def releasedWorld : World :=
  { store := { items := [releasedItem], secrets := [] }, trace := [] }

/-! ## Facts about the store -/

theorem getItem_key {s : Store} {key : NamespacedName} {item : OnePasswordItem}
    (h : s.getItem key = some item) : item.key = key := by
  have := List.find?_some h
  simpa using this

theorem getSecret_deleteSecret (s : Store) (key : NamespacedName) :
    (s.deleteSecret key).getSecret key = none := by
  simp [Store.getSecret, Store.deleteSecret, List.find?_eq_none]

theorem getSecret_none_iff (s : Store) (key : NamespacedName) :
    s.getSecret key = none ↔ ∀ x ∈ s.secrets, x.key ≠ key := by
  simp [Store.getSecret, List.find?_eq_none]

theorem find_map_putItem (l : List OnePasswordItem) (item x : OnePasswordItem)
    (h : l.find? (fun y => decide (y.key = item.key)) = some x) :
    (l.map (fun y => if y.key = item.key then { item with Conditions := y.Conditions } else y)).find?
      (fun y => decide (y.key = item.key)) = some { item with Conditions := x.Conditions } := by
  induction l with
  | nil => simp at h
  | cons a t ih =>
    by_cases ha : a.key = item.key
    · have hx : a = x := by simpa [List.find?, ha] using h
      subst hx
      have hk : OnePasswordItem.key { item with Conditions := a.Conditions } = item.key := rfl
      simp [List.find?, ha, hk]
    · have ht : t.find? (fun y => decide (y.key = item.key)) = some x := by
        simpa [List.find?, ha] using h
      simp [List.find?, ha, ih ht]

theorem getItem_putItem (s : Store) (item x : OnePasswordItem)
    (h : s.getItem item.key = some x) :
    (s.putItem item).getItem item.key = some { item with Conditions := x.Conditions } := by
  simpa [Store.getItem, Store.putItem] using find_map_putItem s.items item x h

theorem find_map_putItemStatus (l : List OnePasswordItem) (item x : OnePasswordItem)
    (h : l.find? (fun y => decide (y.key = item.key)) = some x) :
    (l.map (fun y => if y.key = item.key then { y with Conditions := item.Conditions } else y)).find?
      (fun y => decide (y.key = item.key)) = some { x with Conditions := item.Conditions } := by
  induction l with
  | nil => simp at h
  | cons a t ih =>
    by_cases ha : a.key = item.key
    · have hx : a = x := by simpa [List.find?, ha] using h
      subst hx
      have hk : OnePasswordItem.key { a with Conditions := item.Conditions } = item.key := ha
      simp [List.find?, ha, hk]
    · have ht : t.find? (fun y => decide (y.key = item.key)) = some x := by
        simpa [List.find?, ha] using h
      simp [List.find?, ha, ih ht]

theorem getItem_putItemStatus (s : Store) (item x : OnePasswordItem)
    (h : s.getItem item.key = some x) :
    (s.putItemStatus item).getItem item.key = some { x with Conditions := item.Conditions } := by
  simpa [Store.getItem, Store.putItemStatus] using find_map_putItemStatus s.items item x h

theorem containsString_removeString (l : List String) (s : String) :
    ContainsString (RemoveString l s) s = false := by
  simp [ContainsString, RemoveString, List.contains_iff_exists_mem_beq]

/-! ## Cleanup and finalizer removal -/

theorem record_trace (w : World) (c : Call) :
    (w.record c).trace = w.trace ++ [{ call := c, before := w.store }] := rfl

theorem record_store (w : World) (c : Call) : (w.record c).store = w.store := rfl

theorem kubeDeleteSecret_trace (env : Env) (w : World) (key : NamespacedName) :
    (kubeDeleteSecret env w key).1.trace
      = w.trace ++ [{ call := .deleteSecret key, before := w.store }] := by
  unfold kubeDeleteSecret
  split
  · rfl
  · split <;> rfl

theorem kubeDeleteSecret_error (env : Env) (w : World) (key : NamespacedName) :
    (kubeDeleteSecret env w key).2 =
      match env.fault w.trace.length .deleteSecret with
      | some msg => some (.other msg)
      | none => if (w.store.getSecret key).isSome then none else some (.notFound "not found") := by
  unfold kubeDeleteSecret
  split
  · rfl
  · split <;> simp [*]

theorem deleteSecret_of_absent (s : Store) (key : NamespacedName)
    (h : s.getSecret key = none) : s.deleteSecret key = s := by
  rw [getSecret_none_iff] at h
  have : s.secrets.filter (fun x => decide (x.key ≠ key)) = s.secrets := by
    rw [List.filter_eq_self]
    intro a ha
    simpa using h a ha
  unfold Store.deleteSecret
  rw [this]

theorem kubeDeleteSecret_store (env : Env) (w : World) (key : NamespacedName) :
    (kubeDeleteSecret env w key).1.store =
      match env.fault w.trace.length .deleteSecret with
      | some _ => w.store
      | none => w.store.deleteSecret key := by
  unfold kubeDeleteSecret
  split
  · rfl
  · split
    · rename_i h
      simp only [record_store, deleteSecret_of_absent _ _ h]
    · rfl

theorem cleanup_world (env : Env) (w : World) (item : OnePasswordItem) :
    (cleanupKubernetesSecret env w item).1
      = (kubeDeleteSecret env (kubeDeleteSecret env w item.key).1 item.key).1 := by
  simp only [cleanupKubernetesSecret, OnePasswordItem.key]
  rcases kubeDeleteSecret env (kubeDeleteSecret env w ⟨item.Namespace, item.Name⟩).1
    ⟨item.Namespace, item.Name⟩ with ⟨w2, _ | e⟩
  · rfl
  · dsimp only
    split <;> rfl

theorem cleanup_error (env : Env) (w : World) (item : OnePasswordItem) :
    (cleanupKubernetesSecret env w item).2
      = match (kubeDeleteSecret env (kubeDeleteSecret env w item.key).1 item.key).2 with
        | some err => if IsNotFound err then none else some err
        | none => none := by
  simp only [cleanupKubernetesSecret, OnePasswordItem.key]
  rcases kubeDeleteSecret env (kubeDeleteSecret env w ⟨item.Namespace, item.Name⟩).1
    ⟨item.Namespace, item.Name⟩ with ⟨w2, _ | e⟩
  · rfl
  · dsimp only
    cases IsNotFound e <;> rfl

theorem kubeUpdate_trace (env : Env) (w : World) (item : OnePasswordItem) :
    (kubeUpdate env w item).1.trace
      = w.trace ++ [{ call := .update item, before := w.store }] := by
  unfold kubeUpdate
  split
  · rfl
  · split <;> rfl

theorem kubeStatusUpdate_trace (env : Env) (w : World) (item : OnePasswordItem) :
    (kubeStatusUpdate env w item).1.trace
      = w.trace ++ [{ call := .statusUpdate item, before := w.store }] := by
  unfold kubeStatusUpdate
  split
  · rfl
  · split <;> rfl

theorem removeFinalizer_eq (env : Env) (w : World) (item : OnePasswordItem) :
    removeFinalizer env w item
      = kubeUpdate env w { item with Finalizers := RemoveString item.Finalizers finalizer } := by
  simp only [removeFinalizer]
  rcases kubeUpdate env w { item with Finalizers := RemoveString item.Finalizers finalizer }
    with ⟨w1, _ | e⟩ <;> rfl

/-- The deletion branch of `Reconcile` in terms of its two steps. -/
theorem Reconcile_deleting (env : Env) (w : World) (request : NamespacedName)
    (item : OnePasswordItem)
    (hfault : env.fault w.trace.length .get = none)
    (hget : w.store.getItem request = some item)
    (hdel : IsZero item.DeletionTimestamp = false)
    (hfin : ContainsString item.Finalizers finalizer = true) :
    Reconcile env w request =
      match (cleanupKubernetesSecret env (w.record (.get request)) item).2 with
      | some err => ((cleanupKubernetesSecret env (w.record (.get request)) item).1, {}, some err)
      | none =>
        ((removeFinalizer env (cleanupKubernetesSecret env (w.record (.get request)) item).1 item).1,
          {},
          (removeFinalizer env (cleanupKubernetesSecret env (w.record (.get request)) item).1 item).2) := by
  simp only [Reconcile, kubeGet, hfault, hget, hdel, hfin]
  rcases cleanupKubernetesSecret env (w.record (.get request)) item with ⟨w2, _ | e⟩
  · simp only [Bool.false_eq_true, if_false, if_true]
    rcases removeFinalizer env w2 item with ⟨w3, _ | e3⟩ <;> rfl
  · rfl

theorem cleanup_trace (env : Env) (w : World) (item : OnePasswordItem) :
    (cleanupKubernetesSecret env w item).1.trace
      = w.trace ++ [{ call := .deleteSecret item.key, before := w.store },
          { call := .deleteSecret item.key,
            before := (kubeDeleteSecret env w item.key).1.store }] := by
  rw [cleanup_world, kubeDeleteSecret_trace, kubeDeleteSecret_trace]
  simp

/-- The second delete was rejected by the environment exactly when the cleanup
fails; the error is the one of the rejection. -/
theorem cleanup_error_fault (env : Env) (w : World) (item : OnePasswordItem) :
    (cleanupKubernetesSecret env w item).2
      = (env.fault (w.trace.length + 1) .deleteSecret).map GoError.other := by
  rw [cleanup_error, kubeDeleteSecret_error, kubeDeleteSecret_trace]
  simp only [List.length_append, List.length_singleton]
  cases env.fault (w.trace.length + 1) .deleteSecret with
  | some msg => simp [IsNotFound]
  | none =>
    cases ((kubeDeleteSecret env w item.key).1.store.getSecret item.key).isSome <;>
      simp [IsNotFound]

theorem cleanup_ok_absent (env : Env) (w : World) (item : OnePasswordItem)
    (h : (cleanupKubernetesSecret env w item).2 = none) :
    (cleanupKubernetesSecret env w item).1.store.getSecret item.key = none := by
  rw [cleanup_error_fault] at h
  rw [cleanup_world, kubeDeleteSecret_store, kubeDeleteSecret_trace]
  simp only [List.length_append, List.length_singleton]
  cases hf : env.fault (w.trace.length + 1) .deleteSecret with
  | some msg => simp [hf] at h
  | none => exact getSecret_deleteSecret _ _

theorem since_append (w w0 : World) (l : List Event) (h : w.trace = w0.trace ++ l) :
    w.since w0 = l := by
  simp [World.since, h]

/-- C1. Finalizer invariant. For a resource that is being deleted and carries
the finalizer, every update request that `Reconcile` issues (the one that
removes the finalizer) meets a store that holds no secret with the name and
namespace of the resource, whatever the environment answers to the two delete
requests of the cleanup and to any other request. -/
theorem finalizer_removed_only_after_secret_absent (env : Env) (w : World)
    (request : NamespacedName) (item : OnePasswordItem)
    (hget : w.store.getItem request = some item)
    (hdel : IsZero item.DeletionTimestamp = false)
    (hfin : ContainsString item.Finalizers finalizer = true) :
    ∀ ev ∈ (Reconcile env w request).1.since w, ∀ it, ev.call = .update it →
      ∀ s ∈ ev.before.secrets, ¬ (s.Name = item.Name ∧ s.Namespace = item.Namespace) := by
  intro ev hev it hcall s hs hname
  have hkey : s.key = item.key := by
    simp [Secret.key, OnePasswordItem.key, hname.1, hname.2]
  cases hfault : env.fault w.trace.length .get with
  | some msg =>
    have hr : (Reconcile env w request).1 = w.record (.get request) := by
      simp [Reconcile, kubeGet, hfault, IsNotFound]
    rw [hr, since_append _ _ _ (record_trace w _)] at hev
    simp only [List.mem_singleton] at hev
    subst hev
    simp at hcall
  | none =>
    rw [Reconcile_deleting env w request item hfault hget hdel hfin] at hev
    cases hc : (cleanupKubernetesSecret env (w.record (.get request)) item).2 with
    | some err =>
      rw [hc] at hev
      dsimp only at hev
      rw [since_append _ _ _ (by rw [cleanup_trace, record_trace, List.append_assoc])] at hev
      simp only [List.singleton_append, List.mem_cons, List.mem_singleton, List.not_mem_nil,
        or_false] at hev
      rcases hev with hev | hev | hev <;> subst hev <;> simp at hcall
    | none =>
      rw [hc] at hev
      dsimp only at hev
      rw [since_append _ _ _ (by
        rw [removeFinalizer_eq, kubeUpdate_trace, cleanup_trace, record_trace,
          List.append_assoc, List.append_assoc])] at hev
      simp only [List.singleton_append, List.cons_append, List.nil_append, List.mem_cons,
        List.mem_singleton, List.not_mem_nil, or_false] at hev
      rcases hev with hev | hev | hev | hev
      · subst hev; simp at hcall
      · subst hev; simp at hcall
      · subst hev; simp at hcall
      · subst hev
        have habs := cleanup_ok_absent env (w.record (.get request)) item hc
        rw [getSecret_none_iff] at habs
        exact habs s hs hkey

/-! ## Status -/

theorem findCondition_typ (conditions : List OnePasswordItemCondition) (t : String) :
    (findCondition conditions t).Typ = t := by
  induction conditions with
  | nil => rfl
  | cons c rest ih =>
    unfold findCondition
    split
    · assumption
    · exact ih

theorem findCondition_of_absent (conditions : List OnePasswordItemCondition) (t : String)
    (h : ∀ c ∈ conditions, c.Typ ≠ t) :
    findCondition conditions t
      = { Typ := t, Status := ConditionUnknown, LastTransitionTime := 0, Message := "" } := by
  induction conditions with
  | nil => rfl
  | cons c rest ih =>
    unfold findCondition
    rw [if_neg (h c (List.mem_cons_self _ _))]
    exact ih (fun x hx => h x (List.mem_cons_of_mem _ hx))

theorem updateStatus_world (env : Env) (w : World) (resource : OnePasswordItem)
    (err : Option GoError) :
    (updateStatus env w resource err).1
      = (kubeStatusUpdate env w (updateStatus env w resource err).2.1).1 := rfl

theorem updateStatus_error (env : Env) (w : World) (resource : OnePasswordItem)
    (err : Option GoError) :
    (updateStatus env w resource err).2.2
      = (kubeStatusUpdate env w (updateStatus env w resource err).2.1).2 := rfl

theorem updateStatus_conditions (env : Env) (w : World) (resource : OnePasswordItem)
    (err : Option GoError) :
    (updateStatus env w resource err).2.1.Conditions =
      [{ Typ := OnePasswordItemReady
         Status := match err with
           | some _ => ConditionFalse
           | none => ConditionTrue
         LastTransitionTime :=
           if (findCondition resource.Conditions OnePasswordItemReady).Status =
               (match err with
                | some _ => ConditionFalse
                | none => ConditionTrue)
           then (findCondition resource.Conditions OnePasswordItemReady).LastTransitionTime
           else env.now
         Message := match err with
           | some e => e.Error
           | none => "" }] := by
  have ht := findCondition_typ resource.Conditions OnePasswordItemReady
  cases err with
  | none =>
    simp only [updateStatus]
    by_cases hs : (findCondition resource.Conditions OnePasswordItemReady).Status = ConditionTrue
    · simp [hs, ht]
    · simp [hs, ht]
  | some e =>
    simp only [updateStatus]
    by_cases hs : (findCondition resource.Conditions OnePasswordItemReady).Status = ConditionFalse
    · simp [hs, ht]
    · simp [hs, ht]

theorem kubeStatusUpdate_error (env : Env) (w : World) (item : OnePasswordItem) :
    (kubeStatusUpdate env w item).2 =
      match env.fault w.trace.length .statusUpdate with
      | some msg => some (.other msg)
      | none => if (w.store.getItem item.key).isSome then none else some (.notFound "not found") := by
  unfold kubeStatusUpdate
  split
  · rfl
  · split <;> simp [*]

theorem map_eq_self_of_fixed {α : Type} (l : List α) (f : α → α) (h : ∀ x ∈ l, f x = x) :
    l.map f = l := by
  induction l with
  | nil => rfl
  | cons a t ih =>
    rw [List.map_cons, h a (List.mem_cons_self _ _),
      ih (fun x hx => h x (List.mem_cons_of_mem _ hx))]

theorem putItemStatus_of_absent (s : Store) (item : OnePasswordItem)
    (h : s.getItem item.key = none) : s.putItemStatus item = s := by
  have h1 : ∀ x ∈ s.items, x.key ≠ item.key := by
    simpa [Store.getItem, List.find?_eq_none] using h
  have : s.items.map (fun x =>
      if x.key = item.key then { x with Conditions := item.Conditions } else x) = s.items := by
    apply map_eq_self_of_fixed
    intro x hx
    rw [if_neg (h1 x hx)]
  unfold Store.putItemStatus
  rw [this]

theorem putItem_of_absent (s : Store) (item : OnePasswordItem)
    (h : s.getItem item.key = none) : s.putItem item = s := by
  have h1 : ∀ x ∈ s.items, x.key ≠ item.key := by
    simpa [Store.getItem, List.find?_eq_none] using h
  have : s.items.map (fun x =>
      if x.key = item.key then { item with Conditions := x.Conditions } else x) = s.items := by
    apply map_eq_self_of_fixed
    intro x hx
    rw [if_neg (h1 x hx)]
  unfold Store.putItem
  rw [this]

theorem kubeStatusUpdate_store (env : Env) (w : World) (item : OnePasswordItem) :
    (kubeStatusUpdate env w item).1.store =
      match env.fault w.trace.length .statusUpdate with
      | some _ => w.store
      | none => w.store.putItemStatus item := by
  unfold kubeStatusUpdate
  split
  · rfl
  · split
    · rename_i h
      simp only [record_store, putItemStatus_of_absent _ _ h]
    · rfl

theorem kubeUpdate_error (env : Env) (w : World) (item : OnePasswordItem) :
    (kubeUpdate env w item).2 =
      match env.fault w.trace.length .update with
      | some msg => some (.other msg)
      | none => if (w.store.getItem item.key).isSome then none else some (.notFound "not found") := by
  unfold kubeUpdate
  split
  · rfl
  · split <;> simp [*]

theorem kubeUpdate_store (env : Env) (w : World) (item : OnePasswordItem) :
    (kubeUpdate env w item).1.store =
      match env.fault w.trace.length .update with
      | some _ => w.store
      | none => w.store.putItem item := by
  unfold kubeUpdate
  split
  · rfl
  · split
    · rename_i h
      simp only [record_store, putItem_of_absent _ _ h]
    · rfl

theorem updateStatus_since (env : Env) (w : World) (resource : OnePasswordItem)
    (err : Option GoError) :
    (updateStatus env w resource err).1.since w
      = [{ call := .statusUpdate (updateStatus env w resource err).2.1, before := w.store }] := by
  apply since_append
  rw [updateStatus_world, kubeStatusUpdate_trace]

theorem findCondition_of_first (pre post : List OnePasswordItemCondition)
    (c0 : OnePasswordItemCondition) (t : String)
    (hpre : ∀ x ∈ pre, x.Typ ≠ t) (h0 : c0.Typ = t) :
    findCondition (pre ++ c0 :: post) t = c0 := by
  induction pre with
  | nil =>
    show findCondition (c0 :: post) t = c0
    unfold findCondition
    rw [if_pos h0]
  | cons a rest ih =>
    show findCondition (a :: (rest ++ c0 :: post)) t = c0
    unfold findCondition
    rw [if_neg (hpre a (List.mem_cons_self _ _))]
    exact ih (fun x hx => hpre x (List.mem_cons_of_mem _ hx))

/-- C3. The Ready condition that `updateStatus` writes has status true or false
after the sync outcome. When the recorded conditions hold a condition of type
Ready (the first such one, `c0`, is the existing one), the written condition
keeps the transition time of `c0` if its status value equals the status value
of `c0`, and carries the current time otherwise. When no condition of type
Ready is recorded the existing status is unknown, which differs from both true
and false, and the written condition carries the current time. -/
theorem updateStatus_stamps_only_on_change (env : Env) (w : World)
    (resource : OnePasswordItem) (err : Option GoError) :
    ∃ c : OnePasswordItemCondition,
      (updateStatus env w resource err).1.since w
        = [{ call := .statusUpdate { resource with Conditions := [c] }, before := w.store }] ∧
      (updateStatus env w resource err).2.1.Conditions = [c] ∧
      c.Status = (match err with
        | some _ => ConditionFalse
        | none => ConditionTrue) ∧
      (∀ (pre post : List OnePasswordItemCondition) (c0 : OnePasswordItemCondition),
        resource.Conditions = pre ++ c0 :: post →
        (∀ x ∈ pre, x.Typ ≠ OnePasswordItemReady) →
        c0.Typ = OnePasswordItemReady →
          c.LastTransitionTime =
            (if c.Status = c0.Status then c0.LastTransitionTime else env.now)) ∧
      ((∀ x ∈ resource.Conditions, x.Typ ≠ OnePasswordItemReady) →
        c.LastTransitionTime = env.now) := by
  have hr : (updateStatus env w resource err).2.1
      = { resource with Conditions := (updateStatus env w resource err).2.1.Conditions } := rfl
  have hs := updateStatus_since env w resource err
  have hc := updateStatus_conditions env w resource err
  rw [hr, hc] at hs
  cases err with
  | none =>
    refine ⟨_, hs, hc, rfl, ?_, ?_⟩
    · intro pre post c0 hsplit hpre h0
      rw [hsplit, findCondition_of_first pre post c0 _ hpre h0]
      dsimp only
      by_cases hx : c0.Status = ConditionTrue
      · rw [if_pos hx, if_pos hx.symm]
      · rw [if_neg hx, if_neg (fun h => hx h.symm)]
    · intro habs
      rw [findCondition_of_absent _ _ habs]
      dsimp only
      rw [if_neg (by decide)]
  | some e =>
    refine ⟨_, hs, hc, rfl, ?_, ?_⟩
    · intro pre post c0 hsplit hpre h0
      rw [hsplit, findCondition_of_first pre post c0 _ hpre h0]
      dsimp only
      by_cases hx : c0.Status = ConditionFalse
      · rw [if_pos hx, if_pos hx.symm]
      · rw [if_neg hx, if_neg (fun h => hx h.symm)]
    · intro habs
      rw [findCondition_of_absent _ _ habs]
      dsimp only
      rw [if_neg (by decide)]

/-- C5. After `updateStatus` the condition list of the resource is one
condition of type Ready: status true and empty message after a successful
sync, status false and the text of the sync error after a failed one, whatever
conditions were recorded before. That list is what the status write carries,
and what the store holds for the resource once the write is accepted. -/
theorem updateStatus_single_ready_condition (env : Env) (w : World)
    (resource : OnePasswordItem) (err : Option GoError) :
    ∃ t : Time,
      (updateStatus env w resource err).2.1.Conditions =
        [{ Typ := OnePasswordItemReady
           Status := (match err with
             | some _ => ConditionFalse
             | none => ConditionTrue)
           LastTransitionTime := t
           Message := (match err with
             | some e => e.Error
             | none => "") }] ∧
      (updateStatus env w resource err).1.since w
        = [{ call := .statusUpdate (updateStatus env w resource err).2.1, before := w.store }] ∧
      (updateStatus env w resource err).1.store =
        (if (updateStatus env w resource err).2.2 = none
         then w.store.putItemStatus (updateStatus env w resource err).2.1
         else w.store) := by
  refine ⟨_, updateStatus_conditions env w resource err, updateStatus_since env w resource err, ?_⟩
  rw [updateStatus_error, updateStatus_world, kubeStatusUpdate_error, kubeStatusUpdate_store]
  cases env.fault w.trace.length .statusUpdate with
  | some msg => simp
  | none =>
    dsimp only
    cases hg : w.store.getItem (updateStatus env w resource err).2.1.key with
    | none => simp [putItemStatus_of_absent _ _ hg]
    | some x => simp

/-! ## The deletion branch -/

theorem kubeDeleteSecret_items (env : Env) (w : World) (key : NamespacedName) :
    (kubeDeleteSecret env w key).1.store.items = w.store.items := by
  rw [kubeDeleteSecret_store]
  split <;> rfl

theorem cleanup_items (env : Env) (w : World) (item : OnePasswordItem) :
    (cleanupKubernetesSecret env w item).1.store.items = w.store.items := by
  rw [cleanup_world, kubeDeleteSecret_items, kubeDeleteSecret_items]

theorem cleanup_since (env : Env) (w : World) (item : OnePasswordItem) :
    (cleanupKubernetesSecret env w item).1.since w
      = [{ call := .deleteSecret item.key, before := w.store },
         { call := .deleteSecret item.key,
           before := (kubeDeleteSecret env w item.key).1.store }] :=
  since_append _ _ _ (cleanup_trace env w item)

/-- C10. `cleanupKubernetesSecret` issues the delete of the secret that has the
name and namespace of the resource twice in a row; its error is decided by the
second delete alone: the error of that delete unless it is "not found", which
counts as success, so the cleanup fails exactly when the environment rejects
the second delete. When the cleanup fails inside `Reconcile`, `Reconcile`
returns the cleanup error, issues no update, and the stored resources (the
finalizer among them) are as before. -/
theorem cleanup_deletes_twice_and_failure_keeps_finalizer (env : Env) (w : World)
    (item : OnePasswordItem) :
    (cleanupKubernetesSecret env w item).1.since w
      = [{ call := .deleteSecret { Namespace := item.Namespace, Name := item.Name },
           before := w.store },
         { call := .deleteSecret { Namespace := item.Namespace, Name := item.Name },
           before := (kubeDeleteSecret env w
             { Namespace := item.Namespace, Name := item.Name }).1.store }] ∧
    (cleanupKubernetesSecret env w item).2
      = (match (kubeDeleteSecret env
            (kubeDeleteSecret env w { Namespace := item.Namespace, Name := item.Name }).1
            { Namespace := item.Namespace, Name := item.Name }).2 with
         | some err => if IsNotFound err then none else some err
         | none => none) ∧
    (cleanupKubernetesSecret env w item).2
      = (env.fault (w.trace.length + 1) .deleteSecret).map GoError.other ∧
    (∀ (w0 : World) (request : NamespacedName) (e : GoError),
      env.fault w0.trace.length .get = none →
      w0.store.getItem request = some item →
      IsZero item.DeletionTimestamp = false →
      ContainsString item.Finalizers finalizer = true →
      w = w0.record (.get request) →
      (cleanupKubernetesSecret env w item).2 = some e →
        Reconcile env w0 request = ((cleanupKubernetesSecret env w item).1, {}, some e) ∧
        (∀ ev ∈ (Reconcile env w0 request).1.since w0, ∀ it, ev.call ≠ .update it) ∧
        (Reconcile env w0 request).1.store.items = w0.store.items) := by
  refine ⟨cleanup_since env w item, cleanup_error env w item, cleanup_error_fault env w item, ?_⟩
  intro w0 request e hfault hget hdel hfin hw he
  subst hw
  have hr := Reconcile_deleting env w0 request item hfault hget hdel hfin
  rw [he] at hr
  dsimp only at hr
  refine ⟨hr, ?_, ?_⟩
  · intro ev hev it hcall
    rw [hr] at hev
    dsimp only at hev
    rw [since_append _ _ _ (by rw [cleanup_trace, record_trace, List.append_assoc])] at hev
    simp only [List.singleton_append, List.mem_cons, List.mem_singleton, List.not_mem_nil,
      or_false] at hev
    rcases hev with hev | hev | hev <;> subst hev <;> simp at hcall
  · rw [hr]
    dsimp only
    rw [cleanup_items, record_store]

/-- C9. When the resource is absent from the store, or is being deleted and
does not carry the cleanup marker, `Reconcile` returns success without requeue
and its only request is the initial get: no write, no delete, no vault fetch,
and the store is as before. Moreover, whatever `Reconcile` does for a resource
that is being deleted, no update it issues carries the cleanup marker. -/
theorem Reconcile_nothing_to_converge (env : Env) (w : World) (request : NamespacedName) :
    (env.fault w.trace.length .get = none →
      (w.store.getItem request = none ∨
        ∃ item, w.store.getItem request = some item ∧
          IsZero item.DeletionTimestamp = false ∧
          ContainsString item.Finalizers finalizer = false) →
      Reconcile env w request
        = (w.record (.get request), { Requeue := false, RequeueAfter := 0 }, none) ∧
      (Reconcile env w request).1.since w = [{ call := .get request, before := w.store }] ∧
      (Reconcile env w request).1.store = w.store) ∧
    (∀ item, w.store.getItem request = some item →
      IsZero item.DeletionTimestamp = false →
      ∀ ev ∈ (Reconcile env w request).1.since w, ∀ it, ev.call = .update it →
        ContainsString it.Finalizers finalizer = false) := by
  have hmain : env.fault w.trace.length .get = none →
      (w.store.getItem request = none ∨
        ∃ item, w.store.getItem request = some item ∧
          IsZero item.DeletionTimestamp = false ∧
          ContainsString item.Finalizers finalizer = false) →
      Reconcile env w request
        = (w.record (.get request), { Requeue := false, RequeueAfter := 0 }, none) := by
    intro hfault h
    rcases h with h | ⟨item, hget, hdel, hfin⟩
    · simp [Reconcile, kubeGet, hfault, h, IsNotFound]
    · simp [Reconcile, kubeGet, hfault, hget, hdel, hfin]
  constructor
  · intro hfault h
    have hr := hmain hfault h
    refine ⟨hr, ?_, ?_⟩
    · rw [hr]
      exact since_append _ _ _ (record_trace w _)
    · rw [hr]
      rfl
  · intro item hget hdel ev hev it hcall
    cases hfault : env.fault w.trace.length .get with
    | some msg =>
      have hr : (Reconcile env w request).1 = w.record (.get request) := by
        simp [Reconcile, kubeGet, hfault, IsNotFound]
      rw [hr, since_append _ _ _ (record_trace w _)] at hev
      simp only [List.mem_singleton] at hev
      subst hev
      simp at hcall
    | none =>
      cases hfin : ContainsString item.Finalizers finalizer with
      | false =>
        rw [hmain hfault (Or.inr ⟨item, hget, hdel, hfin⟩)] at hev
        rw [since_append _ _ _ (record_trace w _)] at hev
        simp only [List.mem_singleton] at hev
        subst hev
        simp at hcall
      | true =>
        rw [Reconcile_deleting env w request item hfault hget hdel hfin] at hev
        cases hc : (cleanupKubernetesSecret env (w.record (.get request)) item).2 with
        | some err =>
          rw [hc] at hev
          dsimp only at hev
          rw [since_append _ _ _ (by rw [cleanup_trace, record_trace, List.append_assoc])] at hev
          simp only [List.singleton_append, List.mem_cons, List.mem_singleton, List.not_mem_nil,
            or_false] at hev
          rcases hev with hev | hev | hev <;> subst hev <;> simp at hcall
        | none =>
          rw [hc] at hev
          dsimp only at hev
          rw [since_append _ _ _ (by
            rw [removeFinalizer_eq, kubeUpdate_trace, cleanup_trace, record_trace,
              List.append_assoc, List.append_assoc])] at hev
          simp only [List.singleton_append, List.cons_append, List.nil_append, List.mem_cons,
            List.mem_singleton, List.not_mem_nil, or_false] at hev
          rcases hev with hev | hev | hev | hev
          · subst hev; simp at hcall
          · subst hev; simp at hcall
          · subst hev; simp at hcall
          · subst hev
            simp only [Call.update.injEq] at hcall
            subst hcall
            exact containsString_removeString _ _

/-! ## The sync branch -/

theorem handle_store (env : Env) (w : World) (resource : OnePasswordItem)
    (request : NamespacedName) :
    (HandleOnePasswordItem env w resource request).1.store
      = (syncEffect env (env.fault (w.trace.length + 1) .createOrUpdateSecret) resource
          w.store).1 := by
  simp only [HandleOnePasswordItem, GetOnePasswordItemByPath, syncEffect]
  cases env.vault resource.ItemPath with
  | error msg => rfl
  | ok item =>
    cases env.gvk with
    | error msg => rfl
    | ok gvk =>
      simp only [CreateKubernetesSecretFromItem, record_trace, List.length_append,
        List.length_singleton]
      cases env.fault (w.trace.length + 1) .createOrUpdateSecret <;> rfl

theorem handle_error (env : Env) (w : World) (resource : OnePasswordItem)
    (request : NamespacedName) :
    (HandleOnePasswordItem env w resource request).2
      = (syncEffect env (env.fault (w.trace.length + 1) .createOrUpdateSecret) resource
          w.store).2 := by
  simp only [HandleOnePasswordItem, GetOnePasswordItemByPath, syncEffect]
  cases env.vault resource.ItemPath with
  | error msg => rfl
  | ok item =>
    cases env.gvk with
    | error msg => rfl
    | ok gvk =>
      simp only [CreateKubernetesSecretFromItem, record_trace, List.length_append,
        List.length_singleton]
      cases env.fault (w.trace.length + 1) .createOrUpdateSecret <;> rfl

theorem handle_calls (env : Env) (w : World) (resource : OnePasswordItem)
    (request : NamespacedName) :
    ((HandleOnePasswordItem env w resource request).1.since w).map Event.call
      = syncCalls env resource := by
  simp only [HandleOnePasswordItem, GetOnePasswordItemByPath, syncCalls]
  cases env.vault resource.ItemPath with
  | error msg => simp [World.since, record_trace]
  | ok item =>
    cases env.gvk with
    | error msg => simp [World.since, record_trace]
    | ok gvk =>
      simp only [CreateKubernetesSecretFromItem, record_trace, List.length_append,
        List.length_singleton]
      cases env.fault (w.trace.length + 1) .createOrUpdateSecret <;>
        simp [World.since, record_trace, derivedSecret]

theorem handle_trace_split (env : Env) (w : World) (resource : OnePasswordItem)
    (request : NamespacedName) :
    (HandleOnePasswordItem env w resource request).1.trace
      = w.trace ++ (HandleOnePasswordItem env w resource request).1.since w := by
  simp only [HandleOnePasswordItem, GetOnePasswordItemByPath]
  cases env.vault resource.ItemPath with
  | error msg => simp [World.since, record_trace]
  | ok item =>
    cases env.gvk with
    | error msg => simp [World.since, record_trace]
    | ok gvk =>
      simp only [CreateKubernetesSecretFromItem, record_trace, List.length_append,
        List.length_singleton]
      cases env.fault (w.trace.length + 1) .createOrUpdateSecret <;>
        simp [World.since, record_trace]

theorem reconcileSync_world (env : Env) (w : World) (item : OnePasswordItem)
    (request : NamespacedName) :
    (reconcileSync env w item request).1
      = (updateStatus env (HandleOnePasswordItem env w item request).1 item
          (HandleOnePasswordItem env w item request).2).1 := by
  simp only [reconcileSync]
  rcases updateStatus env (HandleOnePasswordItem env w item request).1 item
    (HandleOnePasswordItem env w item request).2 with ⟨w2, r, _ | e⟩ <;> rfl

theorem reconcileSync_error (env : Env) (w : World) (item : OnePasswordItem)
    (request : NamespacedName) :
    (reconcileSync env w item request).2.2
      = match (updateStatus env (HandleOnePasswordItem env w item request).1 item
          (HandleOnePasswordItem env w item request).2).2.2 with
        | some updateStatusErr => some (Errorf "cannot update status: " updateStatusErr.Error)
        | none => (HandleOnePasswordItem env w item request).2 := by
  simp only [reconcileSync]
  rcases updateStatus env (HandleOnePasswordItem env w item request).1 item
    (HandleOnePasswordItem env w item request).2 with ⟨w2, r, _ | e⟩ <;> rfl

theorem Reconcile_live_marked (env : Env) (w : World) (request : NamespacedName)
    (item : OnePasswordItem)
    (hfault : env.fault w.trace.length .get = none)
    (hget : w.store.getItem request = some item)
    (hlive : IsZero item.DeletionTimestamp = true)
    (hfin : ContainsString item.Finalizers finalizer = true) :
    Reconcile env w request = reconcileSync env (w.record (.get request)) item request := by
  simp [Reconcile, kubeGet, hfault, hget, hlive, hfin]

theorem Reconcile_live_unmarked (env : Env) (w : World) (request : NamespacedName)
    (item : OnePasswordItem)
    (hfault : env.fault w.trace.length .get = none)
    (hget : w.store.getItem request = some item)
    (hlive : IsZero item.DeletionTimestamp = true)
    (hfin : ContainsString item.Finalizers finalizer = false) :
    Reconcile env w request =
      match (kubeUpdate env (w.record (.get request))
          { item with Finalizers := item.Finalizers ++ [finalizer] }).2 with
      | some err =>
        ((kubeUpdate env (w.record (.get request))
          { item with Finalizers := item.Finalizers ++ [finalizer] }).1, {}, some err)
      | none =>
        reconcileSync env (kubeUpdate env (w.record (.get request))
          { item with Finalizers := item.Finalizers ++ [finalizer] }).1
          { item with Finalizers := item.Finalizers ++ [finalizer] } request := by
  simp only [Reconcile, kubeGet, hfault, hget, hlive, hfin]
  rcases kubeUpdate env (w.record (.get request))
    { item with Finalizers := item.Finalizers ++ [finalizer] } with ⟨w2, _ | e⟩ <;> rfl

theorem getItem_congr {s1 s2 : Store} (h : s1.items = s2.items) (key : NamespacedName) :
    s1.getItem key = s2.getItem key := by
  simp [Store.getItem, h]

theorem syncEffect_items (env : Env) (reject : Option String) (resource : OnePasswordItem)
    (s : Store) : (syncEffect env reject resource s).1.items = s.items := by
  unfold syncEffect
  cases env.vault resource.ItemPath with
  | error msg => rfl
  | ok item =>
    cases env.gvk with
    | error msg => rfl
    | ok gvk => cases reject <;> rfl

theorem handle_getItem (env : Env) (w : World) (resource : OnePasswordItem)
    (request key : NamespacedName) :
    (HandleOnePasswordItem env w resource request).1.store.getItem key = w.store.getItem key :=
  getItem_congr (by rw [handle_store, syncEffect_items]) key

theorem reconcileSync_trace (env : Env) (w : World) (item : OnePasswordItem)
    (request : NamespacedName) :
    (reconcileSync env w item request).1.trace
      = w.trace ++ ((HandleOnePasswordItem env w item request).1.since w ++
          [{ call := .statusUpdate
               (updateStatus env (HandleOnePasswordItem env w item request).1 item
                 (HandleOnePasswordItem env w item request).2).2.1
             before := (HandleOnePasswordItem env w item request).1.store }]) := by
  rw [reconcileSync_world, updateStatus_world, kubeStatusUpdate_trace, ← List.append_assoc,
    ← handle_trace_split]

theorem reconcileSync_calls (env : Env) (w : World) (item : OnePasswordItem)
    (request : NamespacedName) :
    ((reconcileSync env w item request).1.since w).map Event.call
      = syncCalls env item ++
          [.statusUpdate (updateStatus env (HandleOnePasswordItem env w item request).1 item
            (HandleOnePasswordItem env w item request).2).2.1] := by
  rw [since_append _ _ _ (reconcileSync_trace env w item request), List.map_append, handle_calls]
  rfl

/-- The resource that the store holds after the sync and the status update. -/
theorem reconcileSync_getItem (env : Env) (w : World) (item : OnePasswordItem)
    (request : NamespacedName) (hget : w.store.getItem request = some item) :
    (reconcileSync env w item request).1.store.getItem request =
      match env.fault (HandleOnePasswordItem env w item request).1.trace.length .statusUpdate with
      | some _ => some item
      | none => some { item with Conditions :=
          (updateStatus env (HandleOnePasswordItem env w item request).1 item
            (HandleOnePasswordItem env w item request).2).2.1.Conditions } := by
  have hk : item.key = request := getItem_key hget
  have hH : (HandleOnePasswordItem env w item request).1.store.getItem request = some item := by
    rw [handle_getItem, hget]
  rw [reconcileSync_world, updateStatus_world, kubeStatusUpdate_store]
  cases env.fault (HandleOnePasswordItem env w item request).1.trace.length .statusUpdate with
  | some msg => exact hH
  | none =>
    dsimp only
    have hk2 : (updateStatus env (HandleOnePasswordItem env w item request).1 item
        (HandleOnePasswordItem env w item request).2).2.1.key = request := hk
    have := getItem_putItemStatus (HandleOnePasswordItem env w item request).1.store
      (updateStatus env (HandleOnePasswordItem env w item request).1 item
        (HandleOnePasswordItem env w item request).2).2.1 item (by rw [hk2]; exact hH)
    rw [hk2] at this
    exact this

theorem syncCalls_no_update (env : Env) (resource it : OnePasswordItem) :
    Call.update it ∉ syncCalls env resource := by
  unfold syncCalls
  cases env.vault resource.ItemPath with
  | error msg => simp
  | ok vi =>
    cases env.gvk with
    | error msg => simp
    | ok gvk => simp

theorem kubeUpdate_world_of_error (env : Env) (w : World) (item : OnePasswordItem)
    (e : GoError) (h : (kubeUpdate env w item).2 = some e) :
    (kubeUpdate env w item).1 = w.record (.update item) := by
  revert h
  unfold kubeUpdate
  split
  · intro _; rfl
  · split
    · intro _; rfl
    · intro h; simp at h

/-- C8. For a resource that is not being deleted: when the finalizer list lacks
the cleanup marker, the first request of `Reconcile` after the get is the
update of the resource with the marker appended, so it precedes any vault
fetch and any secret write; when that update fails, `Reconcile` returns its
error and issues nothing else (no fetch, no secret write, no status update).
When the marker is present, `Reconcile` issues no update and the stored
finalizer list is as before. -/
theorem Reconcile_persists_finalizer_first (env : Env) (w : World) (request : NamespacedName)
    (item : OnePasswordItem)
    (hfault : env.fault w.trace.length .get = none)
    (hget : w.store.getItem request = some item)
    (hlive : IsZero item.DeletionTimestamp = true) :
    (ContainsString item.Finalizers finalizer = false →
      ((Reconcile env w request).1.since w).take 2
        = [{ call := .get request, before := w.store },
           { call := .update { item with Finalizers := item.Finalizers ++ [finalizer] },
             before := w.store }] ∧
      ∀ e, (kubeUpdate env (w.record (.get request))
          { item with Finalizers := item.Finalizers ++ [finalizer] }).2 = some e →
        (Reconcile env w request).2.2 = some e ∧
        (Reconcile env w request).1.since w
          = [{ call := .get request, before := w.store },
             { call := .update { item with Finalizers := item.Finalizers ++ [finalizer] },
               before := w.store }] ∧
        (Reconcile env w request).1.store = w.store) ∧
    (ContainsString item.Finalizers finalizer = true →
      (∀ ev ∈ (Reconcile env w request).1.since w, ∀ it, ev.call ≠ .update it) ∧
      ((Reconcile env w request).1.store.getItem request).map (fun x => x.Finalizers)
        = some item.Finalizers) := by
  constructor
  · intro hfin
    have hr := Reconcile_live_unmarked env w request item hfault hget hlive hfin
    constructor
    · cases hu : (kubeUpdate env (w.record (.get request))
          { item with Finalizers := item.Finalizers ++ [finalizer] }).2 with
      | some e =>
        rw [hu] at hr
        rw [hr]
        dsimp only
        rw [since_append _ _ _ (by rw [kubeUpdate_trace, record_trace, List.append_assoc])]
        rfl
      | none =>
        rw [hu] at hr
        rw [hr]
        dsimp only
        rw [since_append _ _ _ (by
          rw [reconcileSync_trace, kubeUpdate_trace, record_trace, List.append_assoc,
            List.append_assoc])]
        rfl
    · intro e hu
      rw [hu] at hr
      dsimp only at hr
      rw [hr]
      refine ⟨rfl, ?_, ?_⟩
      · dsimp only
        rw [since_append _ _ _ (by rw [kubeUpdate_trace, record_trace, List.append_assoc])]
        rfl
      · dsimp only
        rw [kubeUpdate_world_of_error _ _ _ _ hu]
        rfl
  · intro hfin
    have hr := Reconcile_live_marked env w request item hfault hget hlive hfin
    constructor
    · intro ev hev it hcall
      have hmem : ev.call ∈ ((Reconcile env w request).1.since w).map Event.call :=
        List.mem_map_of_mem _ hev
      rw [hr, since_append _ _ _ (by
        rw [reconcileSync_trace, record_trace, List.append_assoc]), List.map_append,
        List.map_append, handle_calls] at hmem
      rw [hcall] at hmem
      simp only [List.map_cons, List.map_nil, List.singleton_append, List.mem_cons,
        List.mem_append, List.mem_singleton, List.not_mem_nil, or_false] at hmem
      rcases hmem with h | h | h
      · simp at h
      · exact syncCalls_no_update env item it h
      · simp at h
    · rw [hr, reconcileSync_getItem env (w.record (.get request)) item request hget]
      split <;> rfl

theorem containsString_append_self (l : List String) (s : String) :
    ContainsString (l ++ [s]) s = true := by
  simp [ContainsString]

theorem kubeStatusUpdate_secrets (env : Env) (w : World) (item : OnePasswordItem) :
    (kubeStatusUpdate env w item).1.store.secrets = w.store.secrets := by
  rw [kubeStatusUpdate_store]
  split <;> rfl

theorem reconcileSync_secrets (env : Env) (w : World) (item : OnePasswordItem)
    (request : NamespacedName) :
    (reconcileSync env w item request).1.store.secrets
      = (syncEffect env (env.fault (w.trace.length + 1) .createOrUpdateSecret) item
          w.store).1.secrets := by
  rw [reconcileSync_world, updateStatus_world, kubeStatusUpdate_secrets, handle_store]

/-- A resource that is not being deleted reaches the sync step once the
finalizer is in place: `Reconcile` continues as `reconcileSync` from a world whose
store holds the resource as the controller has it in memory. -/
theorem Reconcile_live_sync (env : Env) (w : World) (request : NamespacedName)
    (item : OnePasswordItem)
    (hfault : env.fault w.trace.length .get = none)
    (hget : w.store.getItem request = some item)
    (hlive : IsZero item.DeletionTimestamp = true)
    (hupd : ContainsString item.Finalizers finalizer = true ∨
      env.fault (w.trace.length + 1) .update = none) :
    ∃ (w1 : World) (fin : List String) (l : List Event),
      Reconcile env w request
        = reconcileSync env w1 { item with Finalizers := fin } request ∧
      w1.store.getItem request = some { item with Finalizers := fin } ∧
      ContainsString fin finalizer = true ∧
      w1.store = (if ContainsString item.Finalizers finalizer = true then w.store
        else w.store.putItem { item with Finalizers := fin }) ∧
      w1.trace = w.trace ++ l ∧
      (∀ ev ∈ l, ∀ sec, ev.call ≠ .createOrUpdateSecret sec) := by
  cases hfin : ContainsString item.Finalizers finalizer with
  | true =>
    refine ⟨w.record (.get request), item.Finalizers, [{ call := .get request, before := w.store }],
      Reconcile_live_marked env w request item hfault hget hlive hfin, hget, hfin, ?_, rfl, ?_⟩
    · simp [record_store]
    · intro ev hev sec hcall
      simp only [List.mem_singleton] at hev
      subst hev
      simp at hcall
  | false =>
    have hf : env.fault (w.trace.length + 1) .update = none := by
      rcases hupd with h | h
      · rw [hfin] at h
        simp at h
      · exact h
    have hk : item.key = request := getItem_key hget
    have hk1 : OnePasswordItem.key { item with Finalizers := item.Finalizers ++ [finalizer] }
        = request := hk
    have hg1 : (w.record (.get request)).store.getItem
        (OnePasswordItem.key { item with Finalizers := item.Finalizers ++ [finalizer] })
          = some item := by
      rw [hk1]
      exact hget
    have he : (kubeUpdate env (w.record (.get request))
        { item with Finalizers := item.Finalizers ++ [finalizer] }).2 = none := by
      rw [kubeUpdate_error, record_trace]
      simp only [List.length_append, List.length_singleton, hf, hg1]
      rfl
    have hs : (kubeUpdate env (w.record (.get request))
        { item with Finalizers := item.Finalizers ++ [finalizer] }).1.store
          = w.store.putItem { item with Finalizers := item.Finalizers ++ [finalizer] } := by
      rw [kubeUpdate_store, record_trace]
      simp only [List.length_append, List.length_singleton, hf]
      rfl
    have hr := Reconcile_live_unmarked env w request item hfault hget hlive hfin
    rw [he] at hr
    dsimp only at hr
    refine ⟨_, item.Finalizers ++ [finalizer],
      [{ call := .get request, before := w.store },
       { call := .update { item with Finalizers := item.Finalizers ++ [finalizer] },
         before := w.store }], hr, ?_, containsString_append_self _ _, ?_, ?_, ?_⟩
    · rw [hs]
      have := getItem_putItem w.store { item with Finalizers := item.Finalizers ++ [finalizer] }
        item (by rw [hk1]; exact hget)
      rw [hk1] at this
      exact this
    · rw [hs]
      simp
    · rw [kubeUpdate_trace, record_trace, List.append_assoc]
      rfl
    · intro ev hev sec hcall
      simp only [List.mem_cons, List.mem_singleton, List.not_mem_nil, or_false] at hev
      rcases hev with hev | hev <;> subst hev <;> simp at hcall

theorem syncEffect_vault_error (env : Env) (reject : Option String)
    (resource : OnePasswordItem) (s : Store) (msg : String)
    (h : env.vault resource.ItemPath = .error msg) :
    syncEffect env reject resource s = (s, some (Errorf "Failed to retrieve item: " msg)) := by
  simp [syncEffect, h]

theorem syncCalls_vault_error (env : Env) (resource : OnePasswordItem) (msg : String)
    (h : env.vault resource.ItemPath = .error msg) :
    syncCalls env resource = [.fetchItem resource.ItemPath] := by
  simp [syncCalls, h]

/-- The status write of `reconcileSync` is accepted when the environment does not
reject it and the store holds the resource. -/
theorem reconcileSync_status_accepted (env : Env) (w : World) (item : OnePasswordItem)
    (request : NamespacedName) (hget : w.store.getItem request = some item)
    (hf : env.fault (HandleOnePasswordItem env w item request).1.trace.length .statusUpdate
      = none) :
    (updateStatus env (HandleOnePasswordItem env w item request).1 item
      (HandleOnePasswordItem env w item request).2).2.2 = none := by
  have hk : (updateStatus env (HandleOnePasswordItem env w item request).1 item
      (HandleOnePasswordItem env w item request).2).2.1.key = request :=
    (getItem_key hget : item.key = request)
  rw [updateStatus_error, kubeStatusUpdate_error, hf, hk, handle_getItem, hget]
  rfl

theorem findCondition_ready_singleton (c : OnePasswordItemCondition)
    (h : c.Typ = OnePasswordItemReady) : findCondition [c] OnePasswordItemReady = c := by
  simp [findCondition, h]

/-- C4. For a resource that is not being deleted, when the vault lookup of its
item path fails and the store accepts every request, `Reconcile` issues no
create-or-update of the derived secret and leaves the stored secrets as they
were, the stored Ready condition has status false and a message that contains
the text of the lookup failure, and `Reconcile` returns an error. -/
theorem Reconcile_vault_lookup_failure (env : Env) (w : World) (request : NamespacedName)
    (item : OnePasswordItem) (msg : String)
    (hget : w.store.getItem request = some item)
    (hlive : IsZero item.DeletionTimestamp = true)
    (haccept : ∀ n kind, env.fault n kind = none)
    (hvault : env.vault item.ItemPath = .error msg) :
    (∀ ev ∈ (Reconcile env w request).1.since w, ∀ sec, ev.call ≠ .createOrUpdateSecret sec) ∧
    (Reconcile env w request).1.store.secrets = w.store.secrets ∧
    (Reconcile env w request).2.2 = some (.other ("Failed to retrieve item: " ++ msg)) ∧
    ∃ stored, (Reconcile env w request).1.store.getItem request = some stored ∧
      (findCondition stored.Conditions OnePasswordItemReady).Status = ConditionFalse ∧
      (findCondition stored.Conditions OnePasswordItemReady).Message
        = "Failed to retrieve item: " ++ msg ∧
      msg.data <:+: (findCondition stored.Conditions OnePasswordItemReady).Message.data := by
  obtain ⟨w1, fin, l, hr, hg1, -, hs1, ht1, hl⟩ :=
    Reconcile_live_sync env w request item (haccept _ _) hget hlive (Or.inr (haccept _ _))
  have hv1 : env.vault (OnePasswordItem.ItemPath { item with Finalizers := fin })
      = .error msg := hvault
  have hH : (HandleOnePasswordItem env w1 { item with Finalizers := fin } request).2
      = some (Errorf "Failed to retrieve item: " msg) := by
    rw [handle_error, syncEffect_vault_error _ _ _ _ _ hv1]
  refine ⟨?_, ?_, ?_, ?_⟩
  · intro ev hev sec hcall
    rw [hr, since_append _ _ _ (by rw [reconcileSync_trace, ht1, List.append_assoc])] at hev
    rcases List.mem_append.1 hev with h | h
    · exact hl ev h sec hcall
    · have hmem : ev.call ∈ ((reconcileSync env w1 { item with Finalizers := fin }
          request).1.since w1).map Event.call := by
        rw [since_append _ _ _ (reconcileSync_trace _ _ _ _)]
        exact List.mem_map_of_mem _ h
      rw [reconcileSync_calls, syncCalls_vault_error _ _ _ hv1, hcall] at hmem
      simp at hmem
  · rw [hr, reconcileSync_secrets, syncEffect_vault_error _ _ _ _ _ hv1, hs1]
    split <;> rfl
  · rw [hr, reconcileSync_error,
      reconcileSync_status_accepted env w1 _ request hg1 (haccept _ _), hH]
    rfl
  · have hstored := reconcileSync_getItem env w1 _ request hg1
    rw [haccept, ← hr] at hstored
    refine ⟨_, hstored, ?_⟩
    dsimp only
    rw [updateStatus_conditions, hH, findCondition_ready_singleton _ rfl]
    refine ⟨rfl, rfl, ?_⟩
    show msg.data <:+: ("Failed to retrieve item: " ++ msg).data
    rw [String.data_append]
    exact (List.suffix_append _ _).isInfix

/-! ## Which error `Reconcile` returns, and what the status says -/

/-- C6, amended. For a resource that is not being deleted, when the sync step
returns an error, `Reconcile` returns an error: the sync error when the status
update that follows is accepted, and the error "cannot update status: ..."
built from the status update error when it is not. -/
theorem Reconcile_sync_error_or_status_error (env : Env) (w : World)
    (request : NamespacedName) (item : OnePasswordItem)
    (hfault : env.fault w.trace.length .get = none)
    (hget : w.store.getItem request = some item)
    (hlive : IsZero item.DeletionTimestamp = true) :
    (ContainsString item.Finalizers finalizer = true →
      ∀ e, (HandleOnePasswordItem env (w.record (.get request)) item request).2 = some e →
        (Reconcile env w request).2.2 =
          (match (updateStatus env
              (HandleOnePasswordItem env (w.record (.get request)) item request).1 item
              (some e)).2.2 with
           | none => some e
           | some updateStatusErr =>
             some (.other ("cannot update status: " ++ updateStatusErr.Error)))) ∧
    (ContainsString item.Finalizers finalizer = false →
      (kubeUpdate env (w.record (.get request))
        { item with Finalizers := item.Finalizers ++ [finalizer] }).2 = none →
      ∀ e, (HandleOnePasswordItem env
          (kubeUpdate env (w.record (.get request))
            { item with Finalizers := item.Finalizers ++ [finalizer] }).1
          { item with Finalizers := item.Finalizers ++ [finalizer] } request).2 = some e →
        (Reconcile env w request).2.2 =
          (match (updateStatus env
              (HandleOnePasswordItem env
                (kubeUpdate env (w.record (.get request))
                  { item with Finalizers := item.Finalizers ++ [finalizer] }).1
                { item with Finalizers := item.Finalizers ++ [finalizer] } request).1
              { item with Finalizers := item.Finalizers ++ [finalizer] } (some e)).2.2 with
           | none => some e
           | some updateStatusErr =>
             some (.other ("cannot update status: " ++ updateStatusErr.Error)))) := by
  constructor
  · intro hfin e he
    rw [Reconcile_live_marked env w request item hfault hget hlive hfin, reconcileSync_error, he]
    cases (updateStatus env (HandleOnePasswordItem env (w.record (.get request)) item request).1
      item (some e)).2.2 <;> rfl
  · intro hfin hu e he
    have hr := Reconcile_live_unmarked env w request item hfault hget hlive hfin
    rw [hu] at hr
    dsimp only at hr
    rw [hr, reconcileSync_error, he]
    cases (updateStatus env
      (HandleOnePasswordItem env
        (kubeUpdate env (w.record (.get request))
          { item with Finalizers := item.Finalizers ++ [finalizer] }).1
        { item with Finalizers := item.Finalizers ++ [finalizer] } request).1
      { item with Finalizers := item.Finalizers ++ [finalizer] } (some e)).2.2 <;> rfl

theorem kubeUpdate_getItem_conditions (env : Env) (w : World) (item x : OnePasswordItem)
    (hget : w.store.getItem item.key = some x) :
    ((kubeUpdate env w item).1.store.getItem item.key).map (fun y => y.Conditions)
      = some x.Conditions := by
  rw [kubeUpdate_store]
  cases env.fault w.trace.length .update with
  | some msg => simp [hget]
  | none => simp [getItem_putItem _ _ _ hget]

/-- C7, amended. For an existing resource: when `Reconcile` returns an error
after the sync step has run and the status write is accepted, the stored Ready
condition has status false and its message is the text of that error. When
the finalizer write fails, or the resource is being deleted (a failed cleanup
or a failed finalizer removal included), `Reconcile` writes no status: the
stored conditions are those from before the attempt. -/
theorem Reconcile_error_in_status_only_after_sync (env : Env) (w : World)
    (request : NamespacedName) (item : OnePasswordItem)
    (hfault : env.fault w.trace.length .get = none)
    (hget : w.store.getItem request = some item) :
    (IsZero item.DeletionTimestamp = true →
      (ContainsString item.Finalizers finalizer = true ∨
        env.fault (w.trace.length + 1) .update = none) →
      (∀ n, env.fault n .statusUpdate = none) →
      ∀ e, (Reconcile env w request).2.2 = some e →
        ∃ stored, (Reconcile env w request).1.store.getItem request = some stored ∧
          (findCondition stored.Conditions OnePasswordItemReady).Status = ConditionFalse ∧
          (findCondition stored.Conditions OnePasswordItemReady).Message = e.Error) ∧
    (IsZero item.DeletionTimestamp = true →
      ContainsString item.Finalizers finalizer = false →
      ∀ e, (kubeUpdate env (w.record (.get request))
          { item with Finalizers := item.Finalizers ++ [finalizer] }).2 = some e →
        (Reconcile env w request).2.2 = some e ∧
        (Reconcile env w request).1.store = w.store ∧
        (∀ ev ∈ (Reconcile env w request).1.since w, ∀ it, ev.call ≠ .statusUpdate it)) ∧
    (IsZero item.DeletionTimestamp = false →
      ((Reconcile env w request).1.store.getItem request).map (fun x => x.Conditions)
        = some item.Conditions ∧
      (∀ ev ∈ (Reconcile env w request).1.since w, ∀ it, ev.call ≠ .statusUpdate it)) := by
  refine ⟨?_, ?_, ?_⟩
  · intro hlive hupd hstat e he
    obtain ⟨w1, fin, l, hr, hg1, -, -, -, -⟩ :=
      Reconcile_live_sync env w request item hfault hget hlive hupd
    have hacc := reconcileSync_status_accepted env w1 _ request hg1 (hstat _)
    have hH : (HandleOnePasswordItem env w1 { item with Finalizers := fin } request).2
        = some e := by
      rw [hr, reconcileSync_error, hacc] at he
      exact he
    have hstored := reconcileSync_getItem env w1 _ request hg1
    rw [hstat, ← hr] at hstored
    refine ⟨_, hstored, ?_⟩
    dsimp only
    rw [updateStatus_conditions, hH, findCondition_ready_singleton _ rfl]
    exact ⟨rfl, rfl⟩
  · intro hlive hfin e hu
    have hr := Reconcile_live_unmarked env w request item hfault hget hlive hfin
    rw [hu] at hr
    dsimp only at hr
    rw [hr]
    refine ⟨rfl, ?_, ?_⟩
    · dsimp only
      rw [kubeUpdate_world_of_error _ _ _ _ hu]
      rfl
    · intro ev hev it hcall
      dsimp only at hev
      rw [since_append _ _ _ (by rw [kubeUpdate_trace, record_trace, List.append_assoc])] at hev
      simp only [List.singleton_append, List.mem_cons, List.mem_singleton, List.not_mem_nil,
        or_false] at hev
      rcases hev with hev | hev <;> subst hev <;> simp at hcall
  · intro hdel
    have hk : item.key = request := getItem_key hget
    cases hfin : ContainsString item.Finalizers finalizer with
    | false =>
      have hr : Reconcile env w request = (w.record (.get request), {}, none) := by
        simp [Reconcile, kubeGet, hfault, hget, hdel, hfin]
      rw [hr]
      refine ⟨?_, ?_⟩
      · show (w.store.getItem request).map (fun x => x.Conditions) = some item.Conditions
        rw [hget]
        rfl
      · intro ev hev it hcall
        rw [since_append _ _ _ (record_trace w _)] at hev
        simp only [List.mem_singleton] at hev
        subst hev
        simp at hcall
    | true =>
      have hr := Reconcile_deleting env w request item hfault hget hdel hfin
      have hgc : (cleanupKubernetesSecret env (w.record (.get request)) item).1.store.getItem
          request = some item := by
        rw [getItem_congr (cleanup_items env (w.record (.get request)) item) request]
        exact hget
      cases hc : (cleanupKubernetesSecret env (w.record (.get request)) item).2 with
      | some err =>
        rw [hc] at hr
        dsimp only at hr
        rw [hr]
        refine ⟨?_, ?_⟩
        · dsimp only
          rw [hgc]
          rfl
        · intro ev hev it hcall
          dsimp only at hev
          rw [since_append _ _ _ (by rw [cleanup_trace, record_trace, List.append_assoc])] at hev
          simp only [List.singleton_append, List.mem_cons, List.mem_singleton,
            List.not_mem_nil, or_false] at hev
          rcases hev with hev | hev | hev <;> subst hev <;> simp at hcall
      | none =>
        rw [hc] at hr
        dsimp only at hr
        rw [hr]
        refine ⟨?_, ?_⟩
        · dsimp only
          rw [removeFinalizer_eq]
          have hk2 : OnePasswordItem.key
              { item with Finalizers := RemoveString item.Finalizers finalizer } = request := hk
          have := kubeUpdate_getItem_conditions env
            (cleanupKubernetesSecret env (w.record (.get request)) item).1
            { item with Finalizers := RemoveString item.Finalizers finalizer } item
            (by rw [hk2]; exact hgc)
          rw [hk2] at this
          exact this
        · intro ev hev it hcall
          dsimp only at hev
          rw [since_append _ _ _ (by
            rw [removeFinalizer_eq, kubeUpdate_trace, cleanup_trace, record_trace,
              List.append_assoc, List.append_assoc])] at hev
          simp only [List.singleton_append, List.cons_append, List.nil_append, List.mem_cons,
            List.mem_singleton, List.not_mem_nil, or_false] at hev
          rcases hev with hev | hev | hev | hev <;> subst hev <;> simp at hcall

/-! ## Reconciling twice -/

theorem updateStatus_resource (env : Env) (w : World) (resource : OnePasswordItem)
    (err : Option GoError) :
    (updateStatus env w resource err).2.1
      = { resource with Conditions := [readyCondition env.now resource.Conditions err] } := by
  have hr : (updateStatus env w resource err).2.1
      = { resource with Conditions := (updateStatus env w resource err).2.1.Conditions } := rfl
  rw [hr, updateStatus_conditions]
  rfl

theorem readyCondition_again (t1 t2 : Time) (conditions : List OnePasswordItemCondition)
    (err : Option GoError) :
    readyCondition t2 [readyCondition t1 conditions err] err
      = readyCondition t1 conditions err := by
  have hf : findCondition [readyCondition t1 conditions err] OnePasswordItemReady
      = readyCondition t1 conditions err := findCondition_ready_singleton _ rfl
  cases err with
  | none =>
    unfold readyCondition at hf ⊢
    rw [hf]
    simp
  | some e =>
    unfold readyCondition at hf ⊢
    rw [hf]
    simp

theorem putSecret_again (s : Store) (sec : Secret) :
    (s.putSecret sec).putSecret sec = s.putSecret sec := by
  simp [Store.putSecret, List.filter_cons, List.filter_filter]

theorem putItemStatus_again (s : Store) (a b : OnePasswordItem) (hk : b.key = a.key)
    (hc : b.Conditions = a.Conditions) :
    (s.putItemStatus a).putItemStatus b = s.putItemStatus a := by
  unfold Store.putItemStatus
  simp only [List.map_map, hk, hc]
  congr 1
  apply List.map_congr_left
  intro x _
  by_cases hx : x.key = a.key
  · have hx2 : OnePasswordItem.key { x with Conditions := a.Conditions } = a.key := hx
    simp [Function.comp, hx, hx2]
  · simp [Function.comp, hx]

theorem syncEffect_again (env : Env) (reject : Option String) (resource : OnePasswordItem)
    (s : Store) :
    (syncEffect env reject resource (syncEffect env reject resource s).1).1
      = (syncEffect env reject resource s).1 := by
  unfold syncEffect
  cases env.vault resource.ItemPath with
  | error msg => rfl
  | ok item =>
    cases env.gvk with
    | error msg => rfl
    | ok gvk =>
      cases reject with
      | some msg => rfl
      | none => exact putSecret_again _ _

theorem syncEffect_error_store (env : Env) (reject : Option String)
    (resource : OnePasswordItem) (s s2 : Store) :
    (syncEffect env reject resource s2).2 = (syncEffect env reject resource s).2 := by
  unfold syncEffect
  cases env.vault resource.ItemPath with
  | error msg => rfl
  | ok item =>
    cases env.gvk with
    | error msg => rfl
    | ok gvk => cases reject <;> rfl

theorem syncEffect_secrets_congr (env : Env) (reject : Option String)
    (resource : OnePasswordItem) (s s2 : Store) (h : s2.secrets = s.secrets) :
    (syncEffect env reject resource s2).1.secrets
      = (syncEffect env reject resource s).1.secrets := by
  unfold syncEffect
  cases env.vault resource.ItemPath with
  | error msg => exact h
  | ok item =>
    cases env.gvk with
    | error msg => exact h
    | ok gvk =>
      cases reject with
      | some msg => exact h
      | none => simp [Store.putSecret, h]

theorem reconcileSync_items (env : Env) (w : World) (item : OnePasswordItem)
    (request : NamespacedName) :
    (reconcileSync env w item request).1.store.items =
      match env.fault (HandleOnePasswordItem env w item request).1.trace.length .statusUpdate with
      | some _ => w.store.items
      | none => (w.store.putItemStatus
          { item with Conditions := [readyCondition env.now item.Conditions
            (HandleOnePasswordItem env w item request).2] }).items := by
  have hi : (HandleOnePasswordItem env w item request).1.store.items = w.store.items := by
    rw [handle_store, syncEffect_items]
  rw [reconcileSync_world, updateStatus_world, kubeStatusUpdate_store, updateStatus_resource]
  cases env.fault (HandleOnePasswordItem env w item request).1.trace.length .statusUpdate with
  | some msg => exact hi
  | none =>
    simp only [Store.putItemStatus, hi]

theorem store_eq_of_parts {s1 s2 : Store} (hi : s1.items = s2.items)
    (hs : s1.secrets = s2.secrets) : s1 = s2 := by
  cases s1
  cases s2
  simp_all

theorem putItemStatus_items_again (s s0 : Store) (a b : OnePasswordItem)
    (h : s.items = (s0.putItemStatus a).items) (hk : b.key = a.key)
    (hc : b.Conditions = a.Conditions) :
    (s.putItemStatus b).items = s.items := by
  have h1 : (s.putItemStatus b).items = ((s0.putItemStatus a).putItemStatus b).items := by
    simp only [Store.putItemStatus, h]
  rw [h1, putItemStatus_again _ _ _ hk hc, h]

theorem handle_error_steady (env : Env) (t2 : Time)
    (hsteady : ∀ n m kind, env.fault n kind = env.fault m kind)
    (w w2 : World) (item : OnePasswordItem) (cs : List OnePasswordItemCondition)
    (request : NamespacedName) :
    (HandleOnePasswordItem { env with now := t2 } w2 { item with Conditions := cs } request).2
      = (HandleOnePasswordItem env w item request).2 := by
  rw [handle_error, handle_error]
  show (syncEffect env (env.fault (w2.trace.length + 1) .createOrUpdateSecret) item w2.store).2
    = (syncEffect env (env.fault (w.trace.length + 1) .createOrUpdateSecret) item w.store).2
  rw [hsteady (w2.trace.length + 1) (w.trace.length + 1)]
  exact syncEffect_error_store _ _ _ _ _

theorem reconcileSync_secrets_again (env : Env) (t2 : Time)
    (hsteady : ∀ n m kind, env.fault n kind = env.fault m kind)
    (w w2 : World) (item : OnePasswordItem) (cs : List OnePasswordItemCondition)
    (request : NamespacedName)
    (h : w2.store.secrets = (reconcileSync env w item request).1.store.secrets) :
    (reconcileSync { env with now := t2 } w2 { item with Conditions := cs }
      request).1.store.secrets = w2.store.secrets := by
  rw [reconcileSync_secrets] at h
  rw [reconcileSync_secrets]
  show (syncEffect env (env.fault (w2.trace.length + 1) .createOrUpdateSecret) item
    w2.store).1.secrets = w2.store.secrets
  rw [hsteady (w2.trace.length + 1) (w.trace.length + 1),
    syncEffect_secrets_congr _ _ _ _ _ h, syncEffect_again, h]

/-- After the sync and status update of one reconciliation, a second
reconciliation in the same environment leaves the store as it is. -/
theorem sync_then_Reconcile (env : Env) (t2 : Time)
    (hsteady : ∀ n m kind, env.fault n kind = env.fault m kind)
    (w : World) (request : NamespacedName) (item : OnePasswordItem)
    (hget : w.store.getItem request = some item)
    (hlive : IsZero item.DeletionTimestamp = true)
    (hfin : ContainsString item.Finalizers finalizer = true)
    (hg : ∀ n, env.fault n .get = none) :
    (Reconcile { env with now := t2 } (reconcileSync env w item request).1 request).1.store
      = (reconcileSync env w item request).1.store := by
  have hB := reconcileSync_getItem env w item request hget
  have hI := reconcileSync_items env w item request
  rw [updateStatus_resource] at hB
  cases hs : env.fault (HandleOnePasswordItem env w item request).1.trace.length
      .statusUpdate with
  | some msg =>
    rw [hs] at hB hI
    dsimp only at hB hI
    have hr := Reconcile_live_marked { env with now := t2 }
      (reconcileSync env w item request).1 request item (hg _) hB hlive hfin
    rw [hr]
    apply store_eq_of_parts
    · rw [reconcileSync_items]
      have hs2 : env.fault (HandleOnePasswordItem { env with now := t2 }
          ((reconcileSync env w item request).1.record (.get request)) item
            request).1.trace.length .statusUpdate = some msg := by
        rw [hsteady _ (HandleOnePasswordItem env w item request).1.trace.length, hs]
      show (match env.fault _ OpKind.statusUpdate with
        | some _ => _
        | none => _) = _
      rw [hs2]
      rfl
    · exact reconcileSync_secrets_again env t2 hsteady w
        ((reconcileSync env w item request).1.record (.get request)) item item.Conditions
        request rfl
  | none =>
    rw [hs] at hB hI
    dsimp only at hB hI
    have hr := Reconcile_live_marked { env with now := t2 }
      (reconcileSync env w item request).1 request _ (hg _) hB hlive hfin
    rw [hr]
    apply store_eq_of_parts
    · rw [reconcileSync_items]
      have hs2 : env.fault (HandleOnePasswordItem { env with now := t2 }
          ((reconcileSync env w item request).1.record (.get request))
          { item with Conditions := [readyCondition env.now item.Conditions
            (HandleOnePasswordItem env w item request).2] }
            request).1.trace.length .statusUpdate = none := by
        rw [hsteady _ (HandleOnePasswordItem env w item request).1.trace.length, hs]
      show (match env.fault _ OpKind.statusUpdate with
        | some _ => _
        | none => _) = _
      rw [hs2]
      dsimp only
      rw [handle_error_steady env t2 hsteady w, readyCondition_again]
      exact putItemStatus_items_again _ _ _ _ hI rfl rfl
    · exact reconcileSync_secrets_again env t2 hsteady w
        ((reconcileSync env w item request).1.record (.get request)) item _ request rfl

theorem Reconcile_get_rejected (env : Env) (w : World) (request : NamespacedName)
    (msg : String) (h : env.fault w.trace.length .get = some msg) :
    (Reconcile env w request).1.store = w.store := by
  simp [Reconcile, kubeGet, h, IsNotFound, record_store]

theorem Reconcile_update_rejected (env : Env) (w : World) (request : NamespacedName)
    (item : OnePasswordItem) (msg : String)
    (hfault : env.fault w.trace.length .get = none)
    (hget : w.store.getItem request = some item)
    (hlive : IsZero item.DeletionTimestamp = true)
    (hfin : ContainsString item.Finalizers finalizer = false)
    (hu : env.fault (w.trace.length + 1) .update = some msg) :
    (Reconcile env w request).1.store = w.store := by
  have he : (kubeUpdate env (w.record (.get request))
      { item with Finalizers := item.Finalizers ++ [finalizer] }).2 = some (.other msg) := by
    rw [kubeUpdate_error, record_trace]
    simp only [List.length_append, List.length_singleton, hu]
  have hr := Reconcile_live_unmarked env w request item hfault hget hlive hfin
  rw [he] at hr
  dsimp only at hr
  rw [hr]
  dsimp only
  rw [kubeUpdate_world_of_error _ _ _ _ he]
  rfl

/-- C2. Idempotence. For a resource that is not being deleted, in an environment
whose answers do not depend on when a request is made (same vault, same
accepted and rejected kinds of request), a second `Reconcile` right after the
first leaves the whole store as the first left it; in particular the derived
secret is the same and the transition time of the stored Ready condition is
the same, although the clock has moved on. -/
theorem Reconcile_twice_same_state (env : Env) (t2 : Time) (w : World)
    (request : NamespacedName) (item : OnePasswordItem)
    (hsteady : ∀ n m kind, env.fault n kind = env.fault m kind)
    (hget : w.store.getItem request = some item)
    (hlive : IsZero item.DeletionTimestamp = true) :
    (Reconcile { env with now := t2 } (Reconcile env w request).1 request).1.store
      = (Reconcile env w request).1.store ∧
    (Reconcile { env with now := t2 } (Reconcile env w request).1 request).1.store.getSecret
        request
      = (Reconcile env w request).1.store.getSecret request ∧
    ((Reconcile { env with now := t2 } (Reconcile env w request).1 request).1.store.getItem
        request).map (fun x => (findCondition x.Conditions OnePasswordItemReady).LastTransitionTime)
      = ((Reconcile env w request).1.store.getItem request).map
        (fun x => (findCondition x.Conditions OnePasswordItemReady).LastTransitionTime) := by
  have hS : (Reconcile { env with now := t2 } (Reconcile env w request).1 request).1.store
      = (Reconcile env w request).1.store := by
    cases hg0 : env.fault 0 .get with
    | some msg =>
      have hg : ∀ n, env.fault n .get = some msg := fun n => by rw [hsteady n 0, hg0]
      rw [Reconcile_get_rejected { env with now := t2 } _ request msg (hg _)]
    | none =>
      have hg : ∀ n, env.fault n .get = none := fun n => by rw [hsteady n 0, hg0]
      cases hfin : ContainsString item.Finalizers finalizer with
      | true =>
        rw [Reconcile_live_marked env w request item (hg _) hget hlive hfin]
        exact sync_then_Reconcile env t2 hsteady (w.record (.get request)) request item hget
          hlive hfin hg
      | false =>
        cases hu0 : env.fault 0 .update with
        | some msg =>
          have hu : ∀ n, env.fault n .update = some msg := fun n => by rw [hsteady n 0, hu0]
          have h1 := Reconcile_update_rejected env w request item msg (hg _) hget hlive hfin
            (hu _)
          have hget2 : (Reconcile env w request).1.store.getItem request = some item := by
            rw [h1, hget]
          rw [Reconcile_update_rejected { env with now := t2 } _ request item msg (hg _) hget2
            hlive hfin (hu _)]
        | none =>
          have hu : ∀ n, env.fault n .update = none := fun n => by rw [hsteady n 0, hu0]
          obtain ⟨w1, fin, l, hr, hg1, hfin1, -, -, -⟩ :=
            Reconcile_live_sync env w request item (hg _) hget hlive (Or.inr (hu _))
          rw [hr]
          exact sync_then_Reconcile env t2 hsteady w1 request _ hg1 hlive hfin1 hg
  exact ⟨hS, by rw [hS], by rw [hS]⟩

/-! ## The theorems at concrete worlds -/

theorem finalizer_removed_only_after_secret_absent_witness :
    deletingWorld.store.getItem exampleKey = some deletingItem ∧
    IsZero deletingItem.DeletionTimestamp = false ∧
    ContainsString deletingItem.Finalizers finalizer = true ∧
    ((Reconcile quietEnv deletingWorld exampleKey).1.since deletingWorld).map Event.call
      = [.get exampleKey, .deleteSecret exampleKey, .deleteSecret exampleKey,
         .update { deletingItem with Finalizers := [] }] ∧
    (∀ ev ∈ (Reconcile quietEnv deletingWorld exampleKey).1.since deletingWorld,
      ∀ it, ev.call = .update it →
        ∀ s ∈ ev.before.secrets,
          ¬ (s.Name = deletingItem.Name ∧ s.Namespace = deletingItem.Namespace)) :=
  ⟨by decide, by decide, by decide, by decide,
    finalizer_removed_only_after_secret_absent quietEnv deletingWorld exampleKey deletingItem
      (by decide) (by decide) (by decide)⟩

theorem Reconcile_twice_same_state_witness :
    (∀ n m kind, quietEnv.fault n kind = quietEnv.fault m kind) ∧
    liveWorld.store.getItem exampleKey = some exampleItem ∧
    IsZero exampleItem.DeletionTimestamp = true ∧
    ((Reconcile quietEnv liveWorld exampleKey).1.store.getItem exampleKey).map
        (fun x => x.Conditions)
      = some [{ Typ := "Ready", Status := "True", LastTransitionTime := 100, Message := "" }] ∧
    ((Reconcile { quietEnv with now := 200 } (Reconcile quietEnv liveWorld exampleKey).1
        exampleKey).1.store
      = (Reconcile quietEnv liveWorld exampleKey).1.store ∧
    (Reconcile { quietEnv with now := 200 } (Reconcile quietEnv liveWorld exampleKey).1
        exampleKey).1.store.getSecret exampleKey
      = (Reconcile quietEnv liveWorld exampleKey).1.store.getSecret exampleKey ∧
    ((Reconcile { quietEnv with now := 200 } (Reconcile quietEnv liveWorld exampleKey).1
        exampleKey).1.store.getItem exampleKey).map
        (fun x => (findCondition x.Conditions OnePasswordItemReady).LastTransitionTime)
      = ((Reconcile quietEnv liveWorld exampleKey).1.store.getItem exampleKey).map
        (fun x => (findCondition x.Conditions OnePasswordItemReady).LastTransitionTime)) :=
  ⟨fun _ _ _ => rfl, by decide, by decide, by decide,
    Reconcile_twice_same_state quietEnv 200 liveWorld exampleKey exampleItem
      (fun _ _ _ => rfl) (by decide) (by decide)⟩

/-- The three cases of C3 at concrete resources: a recorded Ready condition
with status true and time 7 keeps time 7 after a successful sync, is stamped
with the current time 100 after a failed sync, and a resource without a Ready
condition is stamped with the current time. -/
theorem updateStatus_stamps_only_on_change_witness :
    (markedItem.Conditions
        = [{ Typ := "Other", Status := "True", LastTransitionTime := 3, Message := "kept?" }]
          ++ { Typ := "Ready", Status := "True", LastTransitionTime := 7, Message := "" }
            :: [] ∧
      (∃ c : OnePasswordItemCondition,
        (updateStatus quietEnv markedWorld markedItem none).1.since markedWorld
          = [{ call := .statusUpdate { markedItem with Conditions := [c] },
               before := markedWorld.store }] ∧
        c.Status = ConditionTrue ∧ c.LastTransitionTime = 7) ∧
      (∃ c : OnePasswordItemCondition,
        (updateStatus quietEnv markedWorld markedItem (some (.other "boom"))).1.since
            markedWorld
          = [{ call := .statusUpdate { markedItem with Conditions := [c] },
               before := markedWorld.store }] ∧
        c.Status = ConditionFalse ∧ c.LastTransitionTime = 100)) ∧
    ((∀ x ∈ otherConditionItem.Conditions, x.Typ ≠ OnePasswordItemReady) ∧
      ∃ c : OnePasswordItemCondition,
        (updateStatus quietEnv liveWorld otherConditionItem none).1.since liveWorld
          = [{ call := .statusUpdate { otherConditionItem with Conditions := [c] },
               before := liveWorld.store }] ∧
        c.Status = ConditionTrue ∧ c.LastTransitionTime = 100) :=
  ⟨⟨rfl,
      (updateStatus_stamps_only_on_change quietEnv markedWorld markedItem none).imp
        (fun c h => ⟨h.1, h.2.2.1, by
          have ht := h.2.2.2.1
            [{ Typ := "Other", Status := "True", LastTransitionTime := 3, Message := "kept?" }]
            [] { Typ := "Ready", Status := "True", LastTransitionTime := 7, Message := "" }
            rfl (by decide) rfl
          have hst : c.Status = ConditionTrue := h.2.2.1
          rw [hst] at ht
          exact ht.trans (by decide)⟩),
      (updateStatus_stamps_only_on_change quietEnv markedWorld markedItem
        (some (.other "boom"))).imp
        (fun c h => ⟨h.1, h.2.2.1, by
          have ht := h.2.2.2.1
            [{ Typ := "Other", Status := "True", LastTransitionTime := 3, Message := "kept?" }]
            [] { Typ := "Ready", Status := "True", LastTransitionTime := 7, Message := "" }
            rfl (by decide) rfl
          have hst : c.Status = ConditionFalse := h.2.2.1
          rw [hst] at ht
          exact ht.trans (by decide)⟩)⟩,
    ⟨by decide,
      (updateStatus_stamps_only_on_change quietEnv liveWorld otherConditionItem none).imp
        (fun _ h => ⟨h.1, h.2.2.1, h.2.2.2.2 (by decide)⟩)⟩⟩

theorem Reconcile_vault_lookup_failure_witness :
    liveWorld.store.getItem exampleKey = some exampleItem ∧
    IsZero exampleItem.DeletionTimestamp = true ∧
    (∀ n kind, vaultDownEnv.fault n kind = none) ∧
    vaultDownEnv.vault exampleItem.ItemPath = .error "item not found" ∧
    ((∀ ev ∈ (Reconcile vaultDownEnv liveWorld exampleKey).1.since liveWorld,
        ∀ sec, ev.call ≠ .createOrUpdateSecret sec) ∧
      (Reconcile vaultDownEnv liveWorld exampleKey).1.store.secrets = liveWorld.store.secrets ∧
      (Reconcile vaultDownEnv liveWorld exampleKey).2.2
        = some (.other ("Failed to retrieve item: " ++ "item not found")) ∧
      ∃ stored, (Reconcile vaultDownEnv liveWorld exampleKey).1.store.getItem exampleKey
          = some stored ∧
        (findCondition stored.Conditions OnePasswordItemReady).Status = ConditionFalse ∧
        (findCondition stored.Conditions OnePasswordItemReady).Message
          = "Failed to retrieve item: " ++ "item not found" ∧
        "item not found".data
          <:+: (findCondition stored.Conditions OnePasswordItemReady).Message.data) :=
  ⟨by decide, by decide, fun _ _ => rfl, rfl,
    Reconcile_vault_lookup_failure vaultDownEnv liveWorld exampleKey exampleItem
      "item not found" (by decide) (by decide) (fun _ _ => rfl) rfl⟩

/-- C6 as stated fails: the vault lookup fails, so the sync step returns its
error, the store rejects the status write, and `Reconcile` returns the status
error, not the sync error. -/
theorem sync_error_replaced_by_status_error :
    markedWorld.store.getItem exampleKey = some markedItem ∧
    IsZero markedItem.DeletionTimestamp = true ∧
    (HandleOnePasswordItem statusRejectedEnv (markedWorld.record (.get exampleKey)) markedItem
        exampleKey).2
      = some (.other "Failed to retrieve item: item not found") ∧
    (Reconcile statusRejectedEnv markedWorld exampleKey).2.2
      = some (.other "cannot update status: conflict") ∧
    (Reconcile statusRejectedEnv markedWorld exampleKey).2.2
      ≠ (HandleOnePasswordItem statusRejectedEnv (markedWorld.record (.get exampleKey))
          markedItem exampleKey).2 := by
  decide

theorem Reconcile_sync_error_or_status_error_witness :
    statusRejectedEnv.fault markedWorld.trace.length .get = none ∧
    markedWorld.store.getItem exampleKey = some markedItem ∧
    IsZero markedItem.DeletionTimestamp = true ∧
    ContainsString markedItem.Finalizers finalizer = true ∧
    (HandleOnePasswordItem statusRejectedEnv (markedWorld.record (.get exampleKey)) markedItem
        exampleKey).2
      = some (.other "Failed to retrieve item: item not found") ∧
    (Reconcile statusRejectedEnv markedWorld exampleKey).2.2 =
      (match (updateStatus statusRejectedEnv
          (HandleOnePasswordItem statusRejectedEnv (markedWorld.record (.get exampleKey))
            markedItem exampleKey).1 markedItem
          (some (.other "Failed to retrieve item: item not found"))).2.2 with
       | none => some (.other "Failed to retrieve item: item not found")
       | some updateStatusErr =>
         some (.other ("cannot update status: " ++ updateStatusErr.Error))) :=
  ⟨by decide, by decide, by decide, by decide, by decide,
    (Reconcile_sync_error_or_status_error statusRejectedEnv markedWorld exampleKey markedItem
      (by decide) (by decide) (by decide)).1 (by decide)
      (.other "Failed to retrieve item: item not found") (by decide)⟩

/-- C7 as stated fails: the finalizer write is rejected, `Reconcile` returns
that error, and the stored resource has no condition at all, so no Ready
condition carries the error text. -/
theorem finalizer_write_error_not_in_status :
    liveWorld.store.getItem exampleKey = some exampleItem ∧
    (Reconcile updateRejectedEnv liveWorld exampleKey).2.2 = some (.other "conflict") ∧
    ((Reconcile updateRejectedEnv liveWorld exampleKey).1.store.getItem exampleKey).map
        (fun x => x.Conditions) = some [] ∧
    ((Reconcile updateRejectedEnv liveWorld exampleKey).1.store.getItem exampleKey).map
        (fun x => (findCondition x.Conditions OnePasswordItemReady).Message) = some "" ∧
    ¬ ("conflict".data <:+: "".data) := by
  decide

theorem Reconcile_error_in_status_only_after_sync_witness :
    vaultDownEnv.fault liveWorld.trace.length .get = none ∧
    liveWorld.store.getItem exampleKey = some exampleItem ∧
    IsZero exampleItem.DeletionTimestamp = true ∧
    vaultDownEnv.fault (liveWorld.trace.length + 1) .update = none ∧
    (∀ n, vaultDownEnv.fault n .statusUpdate = none) ∧
    (Reconcile vaultDownEnv liveWorld exampleKey).2.2
      = some (.other "Failed to retrieve item: item not found") ∧
    (∃ stored, (Reconcile vaultDownEnv liveWorld exampleKey).1.store.getItem exampleKey
        = some stored ∧
      (findCondition stored.Conditions OnePasswordItemReady).Status = ConditionFalse ∧
      (findCondition stored.Conditions OnePasswordItemReady).Message
        = (GoError.other "Failed to retrieve item: item not found").Error) :=
  ⟨by decide, by decide, by decide, by decide, fun _ => rfl, by decide,
    (Reconcile_error_in_status_only_after_sync vaultDownEnv liveWorld exampleKey exampleItem
      (by decide) (by decide)).1 (by decide) (Or.inr (by decide)) (fun _ => rfl) _ (by decide)⟩

theorem Reconcile_persists_finalizer_first_witness :
    updateRejectedEnv.fault liveWorld.trace.length .get = none ∧
    liveWorld.store.getItem exampleKey = some exampleItem ∧
    IsZero exampleItem.DeletionTimestamp = true ∧
    ContainsString exampleItem.Finalizers finalizer = false ∧
    (kubeUpdate updateRejectedEnv (liveWorld.record (.get exampleKey))
      { exampleItem with Finalizers := exampleItem.Finalizers ++ [finalizer] }).2
      = some (.other "conflict") ∧
    (((Reconcile updateRejectedEnv liveWorld exampleKey).1.since liveWorld).take 2
        = [{ call := .get exampleKey, before := liveWorld.store },
           { call := .update
               { exampleItem with Finalizers := exampleItem.Finalizers ++ [finalizer] },
             before := liveWorld.store }] ∧
      ∀ e, (kubeUpdate updateRejectedEnv (liveWorld.record (.get exampleKey))
          { exampleItem with Finalizers := exampleItem.Finalizers ++ [finalizer] }).2 = some e →
        (Reconcile updateRejectedEnv liveWorld exampleKey).2.2 = some e ∧
        (Reconcile updateRejectedEnv liveWorld exampleKey).1.since liveWorld
          = [{ call := .get exampleKey, before := liveWorld.store },
             { call := .update
                 { exampleItem with Finalizers := exampleItem.Finalizers ++ [finalizer] },
               before := liveWorld.store }] ∧
        (Reconcile updateRejectedEnv liveWorld exampleKey).1.store = liveWorld.store) :=
  ⟨by decide, by decide, by decide, by decide, by decide,
    (Reconcile_persists_finalizer_first updateRejectedEnv liveWorld exampleKey exampleItem
      (by decide) (by decide) (by decide)).1 (by decide)⟩

theorem Reconcile_nothing_to_converge_witness :
    (quietEnv.fault emptyWorld.trace.length .get = none ∧
      emptyWorld.store.getItem exampleKey = none ∧
      Reconcile quietEnv emptyWorld exampleKey
        = (emptyWorld.record (.get exampleKey), { Requeue := false, RequeueAfter := 0 }, none)) ∧
    (quietEnv.fault releasedWorld.trace.length .get = none ∧
      releasedWorld.store.getItem exampleKey = some releasedItem ∧
      IsZero releasedItem.DeletionTimestamp = false ∧
      ContainsString releasedItem.Finalizers finalizer = false ∧
      Reconcile quietEnv releasedWorld exampleKey
        = (releasedWorld.record (.get exampleKey), { Requeue := false, RequeueAfter := 0 },
            none)) :=
  ⟨⟨by decide, by decide,
      ((Reconcile_nothing_to_converge quietEnv emptyWorld exampleKey).1 (by decide)
        (Or.inl (by decide))).1⟩,
    ⟨by decide, by decide, by decide, by decide,
      ((Reconcile_nothing_to_converge quietEnv releasedWorld exampleKey).1 (by decide)
        (Or.inr ⟨releasedItem, by decide, by decide, by decide⟩)).1⟩⟩

theorem cleanup_deletes_twice_and_failure_keeps_finalizer_witness :
    deleteRejectedEnv.fault deletingWorld.trace.length .get = none ∧
    deletingWorld.store.getItem exampleKey = some deletingItem ∧
    IsZero deletingItem.DeletionTimestamp = false ∧
    ContainsString deletingItem.Finalizers finalizer = true ∧
    (cleanupKubernetesSecret deleteRejectedEnv (deletingWorld.record (.get exampleKey))
      deletingItem).2 = some (.other "delete refused") ∧
    (Reconcile deleteRejectedEnv deletingWorld exampleKey
        = ((cleanupKubernetesSecret deleteRejectedEnv (deletingWorld.record (.get exampleKey))
            deletingItem).1, {}, some (.other "delete refused")) ∧
      (∀ ev ∈ (Reconcile deleteRejectedEnv deletingWorld exampleKey).1.since deletingWorld,
        ∀ it, ev.call ≠ .update it) ∧
      (Reconcile deleteRejectedEnv deletingWorld exampleKey).1.store.items
        = deletingWorld.store.items) :=
  ⟨by decide, by decide, by decide, by decide, by decide,
    (cleanup_deletes_twice_and_failure_keeps_finalizer deleteRejectedEnv
      (deletingWorld.record (.get exampleKey)) deletingItem).2.2.2 deletingWorld exampleKey _
      (by decide) (by decide) (by decide) (by decide) rfl (by decide)⟩

end OnePasswordOperator
